import Mathlib

/-!
Verification development for the persistent key-value store layer of the
repository (`odin/fuel/utils.py`): the `NoSQL` singleton machinery and its two
backends, `MmapDict` (append-only memory-mapped file) and `SQLiteDict`
(multi-table SQLite store) with the `TableDict` table view.

The Python code is shallowly embedded: handle state becomes a Lean structure,
each method becomes a function from state (and arguments) to a new state
and/or an `Except`-style result, the on-disk file becomes a list of abstract
byte tokens, and the external serializers (`marshal.dumps`/`marshal.loads` for
values, `cPickle.dumps`/`cPickle.loads` for the index) become concrete
executable codecs over those tokens with the round-trip behaviour the real
serializers provide (decoding the encoding of a supported value yields the
value back; decoding an empty or misaligned blob fails).
-/

set_option autoImplicit false

namespace OdinFuel

/-- One "byte" of an on-disk file or serialized blob.  A token carries the
atomic datum the real byte would be part of; offsets and lengths count tokens
exactly as the Python code counts bytes. -/
inductive Tok where
  | nat (n : Nat)
  | int (i : Int)
  | bool (b : Bool)
  | ch (c : Char)
deriving DecidableEq, Repr

mutual
/-- The primitive / nested-primitive Python values the stores support
(`marshal`-serializable values: ints, bools, None, strings, nested lists). -/
inductive PyVal where
  | int (i : Int)
  | bool (b : Bool)
  | none
  | str (s : String)
  | list (vs : PyList)

/-- Lists of `PyVal` (a separate mutual inductive so structural recursion and
induction over nested lists are available). -/
inductive PyList where
  | nil
  | cons (v : PyVal) (vs : PyList)
end

deriving instance DecidableEq for PyVal
deriving instance Repr for PyVal

/-- Length of a `PyList`. -/
def PyList.length : PyList → Nat
  | .nil => 0
  | .cons _ vs => vs.length + 1

/-- A Python key as passed by callers: either a `str` or a non-string key
(represented by `int`, the representative non-string primitive).  Python
equality never identifies an `int` with a `str`. -/
inductive PyKey where
  | str (s : String)
  | int (i : Int)
deriving DecidableEq, Repr

/-- Embeds `str(key)`: the string coercion `MmapDict.__setitem__` and
`SQLiteDict.__setitem__` apply to keys. -/
def PyKey.toStr : PyKey → String
  | .str s => s
  | .int i => toString i

/-- The exceptions the embedded code can raise. -/
inductive PyErr where
  | keyError (msg : String)
  | runtimeError (msg : String)
  | integrityError
  | attributeError (msg : String)
  | valueError (msg : String)
  | operationalError (msg : String)
  | programmingError (msg : String)
  | unpicklingError
  | exn (msg : String)
deriving DecidableEq, Repr

/-! ### The `marshal` value codec

`marshal.dumps` is embedded as a concrete self-delimiting token encoding;
`marshal.loads` as the matching fuelled decoder.  Decoding the encoding of a
value returns the value; decoding an empty blob fails, as `marshal.loads`
does. -/

mutual
/-- Embeds `marshal.dumps` for supported values. -/
def marshalDumps : PyVal → List Tok
  | .int i => [.nat 0, .int i]
  | .bool b => [.nat 1, .bool b]
  | .none => [.nat 2]
  | .str s => .nat 3 :: .nat s.length :: s.data.map Tok.ch
  | .list vs => .nat 4 :: .nat vs.length :: marshalDumpsList vs

/-- Embeds `marshal.dumps` applied to each element of a list, concatenated. -/
def marshalDumpsList : PyList → List Tok
  | .nil => []
  | .cons v vs => marshalDumps v ++ marshalDumpsList vs
end

/-- Read `n` character tokens off the front of a blob. -/
def takeChars : Nat → List Tok → Option (List Char × List Tok)
  | 0, toks => some ([], toks)
  | n + 1, (Tok.ch c) :: rest =>
      match takeChars n rest with
      | some (cs, r) => some (c :: cs, r)
      | Option.none => Option.none
  | _ + 1, _ => Option.none

mutual
/-- Fuelled decoder for one marshalled value; returns the value and the
remaining tokens. -/
def mLoad : Nat → List Tok → Option (PyVal × List Tok)
  | 0, _ => Option.none
  | _ + 1, Tok.nat 0 :: Tok.int i :: rest => some (.int i, rest)
  | _ + 1, Tok.nat 1 :: Tok.bool b :: rest => some (.bool b, rest)
  | _ + 1, Tok.nat 2 :: rest => some (.none, rest)
  | _ + 1, Tok.nat 3 :: Tok.nat n :: rest =>
      match takeChars n rest with
      | some (cs, r) => some (.str (String.mk cs), r)
      | Option.none => Option.none
  | fuel + 1, Tok.nat 4 :: Tok.nat n :: rest =>
      match mLoadList fuel n rest with
      | some (vs, r) => some (.list vs, r)
      | Option.none => Option.none
  | _ + 1, _ => Option.none

/-- Fuelled decoder for `n` consecutive marshalled values. -/
def mLoadList : Nat → Nat → List Tok → Option (PyList × List Tok)
  | 0, _, _ => Option.none
  | _ + 1, 0, toks => some (.nil, toks)
  | fuel + 1, n + 1, toks =>
      match mLoad fuel toks with
      | some (v, r) =>
          match mLoadList fuel n r with
          | some (vs, r2) => some (.cons v vs, r2)
          | Option.none => Option.none
      | Option.none => Option.none
end

/-- Embeds `marshal.loads` on an exact blob (the stores always read back exactly the
bytes they wrote for one value). -/
def marshalLoads (toks : List Tok) : Option PyVal :=
  match mLoad (toks.length + 1) toks with
  | some (v, []) => some v
  | _ => Option.none

/-! ### The `cPickle` index codec

`MmapDict` pickles its index, a dict from string key to `(offset, length)`.
Embedded as a count-prefixed concatenation of self-delimiting entries.
`cPickle.loads` ignores trailing bytes but fails on an empty blob. -/

/-- One pickled index entry: key (length-prefixed chars), offset, length. -/
def pickleEntry (e : String × Nat × Nat) : List Tok :=
  Tok.nat e.1.length :: (e.1.data.map Tok.ch ++ [Tok.nat e.2.1, Tok.nat e.2.2])

/-- All pickled index entries, concatenated. -/
def pickleEntries : List (String × Nat × Nat) → List Tok
  | [] => []
  | e :: rest => pickleEntry e ++ pickleEntries rest

/-- Embeds `cPickle.dumps` of the index dictionary. -/
def pickleIndices (idx : List (String × Nat × Nat)) : List Tok :=
  Tok.nat idx.length :: pickleEntries idx

/-- Decoder for `n` pickled index entries. -/
def unpickleEntries : Nat → List Tok → Option (List (String × Nat × Nat) × List Tok)
  | 0, toks => some ([], toks)
  | n + 1, Tok.nat kl :: rest =>
      match takeChars kl rest with
      | some (cs, Tok.nat o :: Tok.nat sz :: r2) =>
          match unpickleEntries n r2 with
          | some (es, r3) => some ((String.mk cs, o, sz) :: es, r3)
          | Option.none => Option.none
      | _ => Option.none
  | _ + 1, _ => Option.none

/-- Embeds `cPickle.loads` applied to an index blob (trailing tokens are ignored,
an empty or misaligned blob fails). -/
def unpickleIndices (toks : List Tok) : Option (List (String × Nat × Nat)) :=
  match toks with
  | Tok.nat n :: rest =>
      match unpickleEntries n rest with
      | some (es, _) => some es
      | Option.none => Option.none
  | _ => Option.none

/-! ### Association-list helpers (Python `dict` operations) -/

/-- Embeds `d[k]` lookup in a string-keyed dict, as `Option`. -/
def alookup {α : Type} : List (String × α) → String → Option α
  | [], _ => Option.none
  | (k, v) :: rest, key => if k = key then some v else alookup rest key

/-- The keys of a dict, in order. -/
def akeys {α : Type} (l : List (String × α)) : List String := l.map Prod.fst

/-- Replace the (first) entry holding key `k` by `(k, v)`. -/
def replaceEntry {α : Type} : List (String × α) → String → α → List (String × α)
  | [], _, _ => []
  | (a, b) :: rest, k, v =>
      if a = k then (k, v) :: rest else (a, b) :: replaceEntry rest k v

/-- Embeds `d[k] = v`: replace the entry if the key is present, else append. -/
def setAssoc {α : Type} (l : List (String × α)) (k : String) (v : α) : List (String × α) :=
  if (alookup l k).isSome then replaceEntry l k v
  else l ++ [(k, v)]

/-- Embeds `del d[k]`: remove the entry with the given key. -/
def eraseKey {α : Type} (l : List (String × α)) (k : String) : List (String × α) :=
  l.filter (fun p => p.1 ≠ k)

/-! ### File primitives

A file is a list of tokens.  `readAt` is seek-then-read (short reads past the
end of the file, as for a real file).  `writeAt` is seek-then-write: it
overwrites in place, zero-fills any gap beyond the current end (POSIX sparse
write), and extends the file as needed. -/

/-- Read `len` tokens starting at `pos` (short read at end of file). -/
def readAt (f : List Tok) (pos len : Nat) : List Tok := (f.drop pos).take len

/-- Write `bs` at `pos`, overwriting in place and extending/zero-filling as
needed. -/
def writeAt (f : List Tok) (pos : Nat) (bs : List Tok) : List Tok :=
  f.take pos ++ List.replicate (pos - f.length) (Tok.nat 0) ++ bs ++ f.drop (pos + bs.length)

/-! ### MmapDict

File layout (from the class docstring):
`|mmapdict|48-bytes(max_pos)|48-bytes(dict_size)|MmapData|indices-dict|`.
The 8-byte magic header plus the two 48-byte right-justified decimal fields
occupy offsets 0..103; `payload` holds the file contents from absolute offset
`104` on, and `maxPos` / `dictSize` mirror the two decimal fields (every read
and write of those fields in the source goes through `seek`; the model keeps
them as the structure fields).  All offsets stored in the index are absolute
file offsets, exactly as in the source. -/

/-- The on-disk state of an `MmapDict` file (magic header assumed valid). -/
structure MmapFile where
  maxPos : Nat
  dictSize : Nat
  payload : List Tok
deriving DecidableEq, Repr

/-- The value `len('mmapdict') + 48 + 48`: the absolute offset where value records
start, and the initial value of the `max_pos` header field. -/
def mmapHeaderSize : Nat := 104

/-- Embeds `MmapDict.MAX_INDICES_SIZE` (25 megabytes), in bytes.  The source
accumulates `(8 + 8 + len(key)) / 1024. / 1024.` megabytes per flushed entry
and compares with `25`; the model counts the same quantity in whole bytes
(`16 + len(key)` per entry against `25 * 1024 * 1024`), which is the exact
rational form of the same comparison. -/
def mmapMaxIndicesBytes : Nat := 25 * 1024 * 1024

/-- In-memory state of an open `MmapDict` handle.  `indices` is
`_indices_dict` (deserialized; background deserialization is modeled as
already finished), `cache` is `_cache_dict`, `increased` is
`_increased_indices_size` in bytes. -/
structure MmapDict where
  file : MmapFile
  indices : List (String × Nat × Nat)
  cache : List (String × PyVal)
  increased : Nat
  readOnly : Bool
  cacheSize : Nat
  isClosed : Bool
deriving DecidableEq, Repr

/-- Embeds `key in self._cache_dict` / `self._cache_dict[key]` probed with the
caller's original key: cache keys are always `str` (coerced on set), and a
non-string Python key never equals a `str` key. -/
def cacheLookup (cache : List (String × PyVal)) (k : PyKey) : Option PyVal :=
  match k with
  | .str s => alookup cache s
  | .int _ => Option.none

/-- Embeds `self.indices[key]` probed with the caller's original key (index keys are
`str`). -/
def idxLookup (idx : List (String × Nat × Nat)) (k : PyKey) : Option (Nat × Nat) :=
  match k with
  | .str s => alookup idx s
  | .int _ => Option.none

/-- The flush loop of `MmapDict._flush`: for each cached `(key, value)` pair,
marshal the value, record `indices[key] = (max_position, len(value))`, advance
`max_position`, append the bytes, and grow the estimated index size. -/
structure FlushAcc where
  indices : List (String × Nat × Nat)
  maxPos : Nat
  increased : Nat
  buffer : List Tok
deriving Repr

/-- See `FlushAcc`: runs the `for key, value in self._cache_dict` loop of
`MmapDict._flush`, returning the updated index, file position, estimated
index growth, and the concatenated value records to append. -/
def flushLoop (cache : List (String × PyVal)) (idx : List (String × Nat × Nat))
    (mp inc : Nat) : FlushAcc :=
  match cache with
  | [] => ⟨idx, mp, inc, []⟩
  | (k, v) :: rest =>
      let bs := marshalDumps v
      let r := flushLoop rest (setAssoc idx k (mp, bs.length)) (mp + bs.length)
        (inc + (16 + k.length))
      ⟨r.indices, r.maxPos, r.increased, bs ++ r.buffer⟩

/-- Embeds `MmapDict._flush(save_all)`: append all cached value records starting at
the current `max_pos`; re-serialize and append the index only when `save_all`
is set or the estimated index growth exceeds `MAX_INDICES_SIZE` (in which case
the `dict_size` header field is rewritten, otherwise it keeps its old value);
always rewrite the `max_pos` header field; clear the write-cache. -/
def MmapDict.flushRaw (s : MmapDict) (saveAll : Bool) : MmapDict :=
  if s.isClosed || s.readOnly then s
  else
    let mp0 := s.file.maxPos
    let r := flushLoop s.cache s.indices mp0 s.increased
    if saveAll = true ∨ mmapMaxIndicesBytes < r.increased then
      let dump := pickleIndices r.indices
      { s with
        file := ⟨r.maxPos, dump.length, writeAt s.file.payload (mp0 - mmapHeaderSize) (r.buffer ++ dump)⟩,
        indices := r.indices, cache := [], increased := 0 }
    else
      { s with
        file := ⟨r.maxPos, s.file.dictSize, writeAt s.file.payload (mp0 - mmapHeaderSize) r.buffer⟩,
        indices := r.indices, cache := [], increased := r.increased }

/-- Embeds `NoSQL.flush` specialized to `MmapDict`: a no-op on read-only or closed
handles, otherwise `_flush`. -/
def MmapDict.flush (s : MmapDict) (saveAll : Bool) : MmapDict :=
  if s.readOnly || s.isClosed then s else s.flushRaw saveAll

/-- Embeds `MmapDict.__setitem__`: no-op when read-only; otherwise coerce the key to
`str`, store into the write-cache, and auto-flush when the cache size exceeds
`cache_size`. -/
def MmapDict.setitem (s : MmapDict) (k : PyKey) (v : PyVal) : MmapDict :=
  if s.readOnly then s
  else
    let key := k.toStr
    let s1 := { s with cache := setAssoc s.cache key v }
    if s.cacheSize < s1.cache.length then s1.flush false else s1

/-- Embeds `MmapDict.__getitem__`: return the cached value when the (uncoerced) key
hits the write-cache, else look up `(start, size)` in the index, read `size`
bytes of the memory map at absolute offset `start`, and unmarshal them. -/
def MmapDict.getitem (s : MmapDict) (k : PyKey) : Except PyErr PyVal :=
  match cacheLookup s.cache k with
  | some v => .ok v
  | Option.none =>
      match idxLookup s.indices k with
      | some (start, size) =>
          match marshalLoads (readAt s.file.payload (start - mmapHeaderSize) size) with
          | some v => .ok v
          | Option.none => .error (.valueError "marshal.loads")
      | Option.none => .error (.keyError k.toStr)

/-- Embeds `MmapDict.__contains__`: `key in self.indices or key in self._cache_dict`
with the uncoerced key. -/
def MmapDict.contains (s : MmapDict) (k : PyKey) : Bool :=
  (idxLookup s.indices k).isSome || (cacheLookup s.cache k).isSome

/-- Result of `MmapDict.__delitem__`. -/
inductive MmapDelOutcome where
  /-- The method returned normally with the updated handle state. -/
  | ok (s : MmapDict)
  /-- The method raised `KeyError` (key absent from both cache and index),
  leaving the state unchanged. -/
  | keyError (s : MmapDict)
  /-- The branch `del self._cache_dict` executed: it removes the **whole**
  `_cache_dict` attribute from the handle (not one entry), so the handle no
  longer has a write-cache and every later cache access raises
  `AttributeError`.  The resulting object is not a valid `MmapDict` state. -/
  | cacheAttrDeleted
deriving Repr

/-- Embeds `MmapDict.__delitem__`: no-op when read-only; when the (uncoerced) key is
in the write-cache the source executes `del self._cache_dict`, deleting the
whole cache attribute; otherwise `del self.indices[key]` (which raises
`KeyError` when the key is absent, and can only match a `str` key). -/
def MmapDict.delitem (s : MmapDict) (k : PyKey) : MmapDelOutcome :=
  if s.readOnly then .ok s
  else
    match cacheLookup s.cache k with
    | some _ => .cacheAttrDeleted
    | Option.none =>
        match k with
        | .str key =>
            if (alookup s.indices key).isSome then
              .ok { s with indices := eraseKey s.indices key }
            else .keyError s
        | .int _ => .keyError s

/-- What `MmapDict._restore_dict` reads back from an existing file: the two
48-byte header fields, then `dict_size` bytes starting at `max_pos`,
deserialized with `cPickle.loads`. -/
def readPersistedIndex (f : MmapFile) : Option (List (String × Nat × Nat)) :=
  unpickleIndices (readAt f.payload (f.maxPos - mmapHeaderSize) f.dictSize)

/-- The in-memory state right after `MmapDict._restore_dict` creates a new
file from scratch: header written with `max_pos = 104` and `dict_size = 0`,
empty index and write-cache. -/
def mmapFresh (cacheSize : Nat) : MmapDict :=
  { file := ⟨mmapHeaderSize, 0, []⟩, indices := [], cache := [], increased := 0,
    readOnly := false, cacheSize := cacheSize, isClosed := false }

/-- Well-formedness of an `MmapDict` state: the data-end header field points
at or past the end of the fixed header, into (or at the end of) the written
part of the file, and the write-cache has no duplicate keys (it models a
Python dict).  All states reachable through the API satisfy this. -/
def MmapDict.wf (s : MmapDict) : Prop :=
  mmapHeaderSize ≤ s.file.maxPos ∧
  s.file.maxPos - mmapHeaderSize ≤ s.file.payload.length ∧
  (akeys s.cache).Nodup

/-! ### SQLiteDict

A database is a list of named tables; each table is a list of
`(key, value)` rows where `value` holds the serialized blob
(`marshal.dumps(v)`; `numpy` arrays are converted to plain lists before
dumping, so every stored value is a `PyVal`).  `caches` is the per-table
write-cache `self._cache` (a `defaultdict(dict)`: a missing table reads as an
empty cache). -/

/-- State of an open `SQLiteDict` handle (plus the database it owns: the
connection and the file are one object in this single-handle model). -/
structure SQLiteDict where
  tables : List (String × List (String × List Tok))
  caches : List (String × List (String × PyVal))
  currentTable : String
  readOnly : Bool
  cacheSize : Nat
  isClosed : Bool
deriving DecidableEq, Repr

/-- Embeds `SQLiteDict._DEFAULT_TABLE`. -/
def sqlDefaultTable : String := "_default_"

/-- Embeds `self.current_cache`: the write-cache of the current table. -/
def SQLiteDict.currentCache (s : SQLiteDict) : List (String × PyVal) :=
  (alookup s.caches s.currentTable).getD []

/-- Embeds `SQLiteDict.set_table`: create the two-column table if it does not exist,
then make it current. -/
def SQLiteDict.setTable (s : SQLiteDict) (tab : String) : SQLiteDict :=
  if (alookup s.tables tab).isSome then { s with currentTable := tab }
  else { s with tables := s.tables ++ [(tab, [])], currentTable := tab }

/-- The batched `INSERT INTO tb VALUES (?, ?)` issued by `SQLiteDict._flush`:
a plain `INSERT` (not `INSERT OR REPLACE`), so a key that already exists as a
row violates the `PRIMARY KEY (key)` constraint and raises
`sqlite3.IntegrityError`.  On error the transaction is never committed, so the
table is returned unchanged at the raise. -/
def insertRows (rows : List (String × List Tok)) :
    List (String × PyVal) → Except PyErr (List (String × List Tok))
  | [] => .ok rows
  | (k, v) :: rest =>
      if (alookup rows k).isSome then .error .integrityError
      else insertRows (rows ++ [(k, marshalDumps v)]) rest

/-- The `for tab in tables` loop of `SQLiteDict._flush`: switch to each table,
and when its write-cache is non-empty batch-insert the cache into the table,
commit, and clear that cache.  An `IntegrityError` propagates immediately
(leaving the current table switched and the cache uncleared). -/
def SQLiteDict.flushTables (s : SQLiteDict) : List String → SQLiteDict × Option PyErr
  | [] => (s, Option.none)
  | tab :: rest =>
      let s1 := s.setTable tab
      let c := s1.currentCache
      if c.length = 0 then s1.flushTables rest
      else
        match insertRows ((alookup s1.tables tab).getD []) c with
        | .error e => (s1, some e)
        | .ok newRows =>
            SQLiteDict.flushTables
              { s1 with tables := setAssoc s1.tables tab newRows,
                        caches := setAssoc s1.caches tab [] } rest

/-- Embeds `SQLiteDict._flush(save_all)`: flush the current table's cache (or every
table's when `save_all`), then restore the previously current table (skipped
when an insert raised). -/
def SQLiteDict.flushRaw (s : SQLiteDict) (saveAll : Bool) : SQLiteDict × Option PyErr :=
  let curr := s.currentTable
  let tabs := if saveAll then s.tables.map Prod.fst else [curr]
  let r := s.flushTables tabs
  match r.2 with
  | some e => (r.1, some e)
  | Option.none => (r.1.setTable curr, Option.none)

/-- Embeds `NoSQL.flush` specialized to `SQLiteDict`: a no-op on read-only or closed
handles, otherwise `_flush`. -/
def SQLiteDict.flush (s : SQLiteDict) (saveAll : Bool) : SQLiteDict × Option PyErr :=
  if s.readOnly || s.isClosed then (s, Option.none) else s.flushRaw saveAll

/-- Embeds `SQLiteDict.__setitem__`: raises `RuntimeError` when read-only; otherwise
stores the string-coerced key in the current table's write-cache and, once the
cache size reaches `cache_size`, flushes and clears the cache (the extra
`clear()` after a successful flush mirrors line 705 of the source; it is a
no-op because `_flush` already cleared the cache). -/
def SQLiteDict.setitem (s : SQLiteDict) (k : String) (v : PyVal) :
    SQLiteDict × Option PyErr :=
  if s.readOnly then
    (s, some (.runtimeError "Cannot __setitem__ for this Dict in read_only mode."))
  else
    let c1 := setAssoc s.currentCache k v
    let s1 := { s with caches := setAssoc s.caches s.currentTable c1 }
    if s.cacheSize ≤ c1.length then
      let r := s1.flush false
      match r.2 with
      | some e => (r.1, some e)
      | Option.none =>
          ({ r.1 with caches := setAssoc r.1.caches r.1.currentTable [] }, Option.none)
    else (s1, Option.none)

/-- Abbreviation: the handle after `__setitem__` stored `(k, v)` into the
current table's write-cache (before any capacity-triggered flush). -/
def SQLiteDict.withSet (s : SQLiteDict) (k : String) (v : PyVal) : SQLiteDict :=
  { s with caches := setAssoc s.caches s.currentTable (setAssoc s.currentCache k v) }

/-- Abbreviation: the handle after a successful single-table `_flush` against
a current table previously holding `rows`: the cache rows are appended
(marshalled) and the cache is cleared. -/
def SQLiteDict.afterFlush (s : SQLiteDict) (rows : List (String × List Tok)) : SQLiteDict :=
  { s with
    tables := setAssoc s.tables s.currentTable
      (rows ++ s.currentCache.map (fun p => (p.1, marshalDumps p.2))),
    caches := setAssoc s.caches s.currentTable [] }

/-- Abbreviation: the handle after `self.current_cache.clear()`. -/
def SQLiteDict.clearCurrent (s : SQLiteDict) : SQLiteDict :=
  { s with caches := setAssoc s.caches s.currentTable [] }

/-- The message of the single-key `KeyError` in `SQLiteDict.__getitem__`. -/
def sqlSingleMsg (k : String) : String :=
  "Cannot find `key`=" ++ "\x27" ++ k ++ "\x27 in the dictionary."

/-- The interpolated `IN (...)` key list of the multi-key query
(`keyval` in the source): each key wrapped in double quotes, comma-joined,
parenthesized. -/
def sqlKeyvalStr (ks : List String) : String :=
  "(" ++ String.intercalate ", " (ks.map (fun k => "\"" ++ k ++ "\"")) ++ ")"

/-- The message of the multi-key `KeyError` in `SQLiteDict.__getitem__`,
naming the offending query's key list. -/
def sqlMultiMsg (ks : List String) : String :=
  "Cannot find all `key`=" ++ "\x27" ++ sqlKeyvalStr ks ++ "\x27 in the dictionary."

/-- Decode a list of stored blobs with `marshal.loads`. -/
def decodeBlobs : List (List Tok) → Option (List PyVal)
  | [] => some []
  | b :: rest =>
      match marshalLoads b, decodeBlobs rest with
      | some v, some vs => some (v :: vs)
      | _, _ => Option.none

/-- The single-key branch of `SQLiteDict.__getitem__`: write-cache first, then
`SELECT value FROM tb WHERE key=... LIMIT 1`, raising `KeyError` when no row
matches. -/
def SQLiteDict.getitemSingle (s : SQLiteDict) (k : String) : Except PyErr PyVal :=
  match alookup s.currentCache k with
  | some v => .ok v
  | Option.none =>
      match alookup s.tables s.currentTable with
      | Option.none => .error (.operationalError ("no such table: " ++ s.currentTable))
      | some rows =>
          match alookup rows k with
          | Option.none => .error (.keyError (sqlSingleMsg k))
          | some blob =>
              match marshalLoads blob with
              | some v => .ok v
              | Option.none => .error (.valueError "marshal.loads")

/-- The multi-key branch of `SQLiteDict.__getitem__`: one
`SELECT value FROM tb WHERE key IN (...)` query (which never consults the
write-cache); when the row count differs from the requested key count it
raises `KeyError` naming the key list, otherwise the decoded values are
returned (in table order, as `fetchall` yields them). -/
def SQLiteDict.getitemMulti (s : SQLiteDict) (ks : List String) : Except PyErr (List PyVal) :=
  match alookup s.tables s.currentTable with
  | Option.none => .error (.operationalError ("no such table: " ++ s.currentTable))
  | some rows =>
      let results := rows.filter (fun r => decide (r.1 ∈ ks))
      if results.length ≠ ks.length then .error (.keyError (sqlMultiMsg ks))
      else
        match decodeBlobs (results.map Prod.snd) with
        | some vs => .ok vs
        | Option.none => .error (.valueError "marshal.loads")

/-- Embeds `SQLiteDict.__delitem__` on a key list (`as_tuple` form; a single key is
the one-element list): a silent no-op when read-only; otherwise keys found in
the write-cache are deleted from it and the remaining keys are passed to one
`DELETE ... WHERE key IN ("...")` — note the source joins the keys **inside a
single pair of double quotes**, so the SQL matches only a row whose key equals
the whole comma-joined string. -/
def SQLiteDict.delitem (s : SQLiteDict) (keys : List String) : SQLiteDict × Option PyErr :=
  if s.readOnly then (s, Option.none)
  else
    let part := keys.foldl
      (fun (acc : List (String × PyVal) × List String) k =>
        if (alookup acc.1 k).isSome then (eraseKey acc.1 k, acc.2)
        else (acc.1, acc.2 ++ [k]))
      (s.currentCache, [])
    match alookup s.tables s.currentTable with
    | Option.none => (s, some (.operationalError ("no such table: " ++ s.currentTable)))
    | some rows =>
        let joined := String.intercalate ", " part.2
        ({ s with tables := setAssoc s.tables s.currentTable
                    (rows.filter (fun r => r.1 ≠ joined)),
                  caches := setAssoc s.caches s.currentTable part.1 }, Option.none)

/-- Embeds `SQLiteDict.update(items)`: a silent no-op when read-only; otherwise keys
already in the write-cache are updated there and the rest are handed to
`executemany("UPDATE tb SET value=(?) WHERE key=(\"?\")", db_update)` — the
second placeholder is quoted, so the statement takes one parameter while two
are supplied per row, and `sqlite3` raises `ProgrammingError` as soon as
`db_update` is non-empty. -/
def SQLiteDict.update (s : SQLiteDict) (items : List (String × PyVal)) :
    SQLiteDict × Option PyErr :=
  if s.readOnly then (s, Option.none)
  else
    let step := items.foldl
      (fun (acc : List (String × PyVal) × Nat) kv =>
        if (alookup acc.1 kv.1).isSome then (setAssoc acc.1 kv.1 kv.2, acc.2)
        else (acc.1, acc.2 + 1))
      (s.currentCache, 0)
    let s1 := { s with caches := setAssoc s.caches s.currentTable step.1 }
    if step.2 = 0 then (s1, Option.none)
    else (s1, some (.programmingError "Incorrect number of bindings supplied."))

/-- Embeds `SQLiteDict.clear`: a silent no-op when read-only; otherwise it executes
`TRUNCATE TABLE tb`, which SQLite does not support, so `sqlite3` raises
`OperationalError` before the cache is cleared. -/
def SQLiteDict.clear (s : SQLiteDict) : SQLiteDict × Option PyErr :=
  if s.readOnly then (s, Option.none)
  else (s, some (.operationalError "near TRUNCATE: syntax error"))

/-! ### TableDict

`TableDict.__init__` assigns exactly two attributes, `_sqlite` and `_name`,
but `table_context` (entered by every dictionary operation on the view) reads
`self._table_name`. -/

/-- A `TableDict` view: the owning handle and the `_name` attribute. -/
structure TableDict where
  sqlite : SQLiteDict
  name : String
deriving Repr

/-- Python attribute lookup on a `TableDict` for string-valued attributes.
`__init__` assigns only `_sqlite` and `_name`; any other name (in particular
`_table_name`) is unassigned and looking it up raises `AttributeError`. -/
def TableDict.getattrStr (td : TableDict) (attr : String) : Option String :=
  if attr = "_name" then some td.name else Option.none

/-- The `AttributeError` message for the unassigned attribute read by
`table_context`. -/
def tableDictAttrMsg : String :=
  "TableDict object has no attribute _table_name"

/-- Entering `TableDict.table_context`: record the handle's current table,
then `set_table(self._table_name)` — which first reads the unassigned
attribute `_table_name` and therefore raises `AttributeError`. -/
def TableDict.tableContextEnter (td : TableDict) : Except PyErr (String × SQLiteDict) :=
  let currTab := td.sqlite.currentTable
  match td.getattrStr "_table_name" with
  | some tn => .ok (currTab, td.sqlite.setTable tn)
  | Option.none => .error (.attributeError tableDictAttrMsg)

/-- Embeds `TableDict.__setitem__`: enter the table context, set on the handle,
restore the previous table (the `contextmanager` has no `try/finally`, so the
restore is skipped when the body raises). -/
def TableDict.setitem (td : TableDict) (k : String) (v : PyVal) :
    TableDict × Option PyErr :=
  match td.tableContextEnter with
  | .error e => (td, some e)
  | .ok (currTab, s1) =>
      let r := s1.setitem k v
      match r.2 with
      | some e2 => ({ td with sqlite := r.1 }, some e2)
      | Option.none => ({ td with sqlite := r.1.setTable currTab }, Option.none)

/-- Embeds `TableDict.__getitem__` (single-key form) through the table context. -/
def TableDict.getitem (td : TableDict) (k : String) : TableDict × Except PyErr PyVal :=
  match td.tableContextEnter with
  | .error e => (td, .error e)
  | .ok (currTab, s1) =>
      match s1.getitemSingle k with
      | .error e2 => ({ td with sqlite := s1 }, .error e2)
      | .ok v => ({ td with sqlite := s1.setTable currTab }, .ok v)

/-- Embeds `TableDict.__delitem__` through the table context. -/
def TableDict.delitem (td : TableDict) (keys : List String) :
    TableDict × Option PyErr :=
  match td.tableContextEnter with
  | .error e => (td, some e)
  | .ok (currTab, s1) =>
      let r := s1.delitem keys
      match r.2 with
      | some e2 => ({ td with sqlite := r.1 }, some e2)
      | Option.none => ({ td with sqlite := r.1.setTable currTab }, Option.none)

/-- Embeds `TableDict.__contains__` through the table context. -/
def TableDict.containsKey (td : TableDict) (k : String) : TableDict × Except PyErr Bool :=
  match td.tableContextEnter with
  | .error e => (td, .error e)
  | .ok (currTab, s1) =>
      let hit := (alookup s1.currentCache k).isSome ||
        (alookup ((alookup s1.tables s1.currentTable).getD []) k).isSome
      ({ td with sqlite := s1.setTable currTab }, .ok hit)

/-- Embeds `TableDict.flush` through the table context. -/
def TableDict.flush (td : TableDict) : TableDict × Option PyErr :=
  match td.tableContextEnter with
  | .error e => (td, some e)
  | .ok (currTab, s1) =>
      let r := s1.flush false
      match r.2 with
      | some e2 => ({ td with sqlite := r.1 }, some e2)
      | Option.none => ({ td with sqlite := r.1.setTable currTab }, Option.none)

/-! ### Opening a store: `NoSQL.__new__` / `NoSQL.__init__`

`__new__` normalizes the path and returns the registered instance for
`(subclass, path)` when one exists — without touching its attributes —
otherwise it creates, registers, and initializes the bookkeeping attributes of
a fresh instance.  Python then calls `__init__` on whichever instance was
returned: `__init__` deletes the file when `override` is set, and re-runs
`_restore_dict(self.path, self.read_only, self.cache_size)` (note: with the
**instance's** stored `read_only`/`cache_size`, so differing arguments on a
second call are ignored).  The models below cover one `(backend, path)`
registry bucket: `reg` is the registered instance for the path (if any) and
`disk` the file on disk (if any; `Option.none` also stands for an empty
file). -/

/-- Result of a constructor call `MmapDict(path, ...)`. -/
structure MmapOpenResult where
  handle : MmapDict
  /-- Whether `__new__` found and returned an already-registered instance. -/
  sameInstance : Bool
  disk : Option MmapFile
deriving Repr

/-- Embeds `MmapDict._restore_dict`: existing non-empty file → check the magic
header (assumed valid for a well-formed `MmapFile`), parse the two 48-byte
fields, read and unpickle the index blob (the source defers the unpickling to
a background task whose failure surfaces on first use; the model surfaces it
at once); missing file → raise in read-only mode, else write a fresh header.
Both branches reset the write-cache and the estimated index growth. -/
def mmapRestore (readOnly : Bool) (cacheSize : Nat) (isClosed : Bool)
    (disk : Option MmapFile) : Except PyErr (MmapDict × Option MmapFile) :=
  match disk with
  | some f =>
      match unpickleIndices (readAt f.payload (f.maxPos - mmapHeaderSize) f.dictSize) with
      | some idx =>
          .ok ({ file := f, indices := idx, cache := [], increased := 0,
                 readOnly := readOnly, cacheSize := cacheSize, isClosed := isClosed },
               some f)
      | Option.none => .error .unpicklingError
  | Option.none =>
      if readOnly then
        .error (.exn "File at path does not exist (read-only mode).")
      else
        .ok ({ file := ⟨mmapHeaderSize, 0, []⟩, indices := [], cache := [],
               increased := 0, readOnly := readOnly, cacheSize := cacheSize,
               isClosed := isClosed },
             some ⟨mmapHeaderSize, 0, []⟩)

/-- A constructor call `MmapDict(path, read_only, cache_size, override)`
against one registry bucket: `__new__` (reuse or register) followed by
`__init__` (optional file deletion, then `_restore_dict`). -/
def mmapOpenCall (reg : Option MmapDict) (disk : Option MmapFile)
    (readOnly : Bool) (cacheSize : Nat) (override : Bool) :
    Except PyErr MmapOpenResult :=
  let found := reg.isSome
  let ro := match reg with | some inst => inst.readOnly | Option.none => readOnly
  let cs := match reg with | some inst => inst.cacheSize | Option.none => cacheSize
  let cl := match reg with | some inst => inst.isClosed | Option.none => false
  let disk1 := if override then Option.none else disk
  match mmapRestore ro cs cl disk1 with
  | .error e => .error e
  | .ok (h, d) => .ok { handle := h, sameInstance := found, disk := d }

/-- Result of a constructor call `SQLiteDict(path, ...)`. -/
structure SqlOpenResult where
  handle : SQLiteDict
  /-- Whether `__new__` found and returned an already-registered instance. -/
  sameInstance : Bool
  disk : List (String × List (String × List Tok))
deriving Repr

/-- A constructor call `SQLiteDict(path, read_only, cache_size, override)`
against one registry bucket.  `_restore_dict` resets `self._cache` to a fresh
`defaultdict`, connects (`sqlite3.connect` creates a missing file, read-only
or not), sets the current table to `_default_`, and creates the default table
when absent. -/
def sqlOpenCall (reg : Option SQLiteDict)
    (disk : Option (List (String × List (String × List Tok))))
    (readOnly : Bool) (cacheSize : Nat) (override : Bool) : SqlOpenResult :=
  let found := reg.isSome
  let ro := match reg with | some inst => inst.readOnly | Option.none => readOnly
  let cs := match reg with | some inst => inst.cacheSize | Option.none => cacheSize
  let cl := match reg with | some inst => inst.isClosed | Option.none => false
  let disk1 := if override then Option.none else disk
  let tabs0 := disk1.getD []
  let h0 : SQLiteDict :=
    { tables := tabs0, caches := [], currentTable := sqlDefaultTable,
      readOnly := ro, cacheSize := cs, isClosed := cl }
  let h1 := h0.setTable sqlDefaultTable
  { handle := h1, sameInstance := found, disk := h1.tables }

/-! ### Concrete states used by witnesses and counterexamples -/

/-- A freshly created writable `SQLiteDict` (default table present, empty). -/
def sqlFresh : SQLiteDict :=
  { tables := [(sqlDefaultTable, [])], caches := [], currentTable := sqlDefaultTable,
    readOnly := false, cacheSize := 250, isClosed := false }

/-- A freshly created writable `SQLiteDict` with `cache_size = 1`. -/
def sqlCap1 : SQLiteDict :=
  { tables := [(sqlDefaultTable, [])], caches := [], currentTable := sqlDefaultTable,
    readOnly := false, cacheSize := 1, isClosed := false }

/-- A `SQLiteDict` handle opened read-only. -/
def roSql : SQLiteDict :=
  { tables := [(sqlDefaultTable, [])], caches := [], currentTable := sqlDefaultTable,
    readOnly := true, cacheSize := 250, isClosed := false }

/-- A writable `SQLiteDict` whose default table already has a row for `"k"`. -/
def sqlOneRow : SQLiteDict :=
  { tables := [(sqlDefaultTable, [("k", marshalDumps (.int 1))])], caches := [],
    currentTable := sqlDefaultTable, readOnly := false, cacheSize := 250,
    isClosed := false }

/-- A writable `SQLiteDict` whose default table has rows `"k1"` and `"k3"`
(but no `"k2"`). -/
def sqlTwoRows : SQLiteDict :=
  { tables := [(sqlDefaultTable,
      [("k1", marshalDumps (.int 1)), ("k3", marshalDumps (.int 3))])],
    caches := [], currentTable := sqlDefaultTable, readOnly := false,
    cacheSize := 250, isClosed := false }

/-- A writable `MmapDict` on a fresh file whose write-cache holds the two
pending entries `"a"` and `"b"`. -/
def mmapCacheAB : MmapDict :=
  { file := ⟨mmapHeaderSize, 0, []⟩, indices := [],
    cache := [("a", .int 1), ("b", .int 2)], increased := 0,
    readOnly := false, cacheSize := 250, isClosed := false }

/-- A writable `MmapDict` whose index has a persisted entry for `"x"` (two
value tokens at offset 104) and whose write-cache is empty. -/
def mmapOneIndexed : MmapDict :=
  { file := ⟨106, 5, marshalDumps (.int 5) ++ pickleIndices [("x", 104, 2)]⟩,
    indices := [("x", 104, 2)], cache := [], increased := 0,
    readOnly := false, cacheSize := 250, isClosed := false }

/-- A writable `MmapDict` on a fresh file with one pending entry whose
accumulated estimated index growth already sits at the 25-MiB threshold, so
the next flush pushes it over and re-serializes the index even with
`save_all=False`. -/
def mmapNearThreshold : MmapDict :=
  { file := ⟨mmapHeaderSize, 0, []⟩, indices := [], cache := [("a", .int 1)],
    increased := 25 * 1024 * 1024, readOnly := false, cacheSize := 250,
    isClosed := false }

/-- The on-disk file of a properly closed one-entry `MmapDict`: the record
for `"x"` (two tokens at offset 104) followed by the pickled index. -/
def c2Disk : MmapFile :=
  ⟨106, 5, marshalDumps (.int 5) ++ pickleIndices [("x", 104, 2)]⟩

/-- A registered `MmapDict` instance for the `c2Disk` path with a pending
(unflushed) write-cache entry `"a"`. -/
def c2Inst : MmapDict :=
  { file := c2Disk, indices := [("x", 104, 2)], cache := [("a", .int 1)],
    increased := 17, readOnly := false, cacheSize := 250, isClosed := false }

/-! ## Lemmas: association lists -/

theorem alookup_eq_none_iff {α : Type} (l : List (String × α)) (k : String) :
    alookup l k = Option.none ↔ k ∉ akeys l := by
  induction l with
  | nil => simp [alookup, akeys]
  | cons p rest ih =>
      obtain ⟨a, b⟩ := p
      by_cases h : a = k
      · subst h; simp [alookup, akeys]
      · simp [alookup, akeys, h, Ne.symm h, ih]

theorem alookup_isSome_iff {α : Type} (l : List (String × α)) (k : String) :
    (alookup l k).isSome ↔ k ∈ akeys l := by
  rw [Option.isSome_iff_ne_none, Ne, alookup_eq_none_iff, not_not]

theorem alookup_append_of_not_mem {α : Type} (l₁ l₂ : List (String × α)) (k : String)
    (h : k ∉ akeys l₁) : alookup (l₁ ++ l₂) k = alookup l₂ k := by
  induction l₁ with
  | nil => rfl
  | cons p rest ih =>
      obtain ⟨a, b⟩ := p
      simp only [akeys, List.map_cons, List.mem_cons, not_or] at h
      simpa [alookup, Ne.symm h.1] using ih h.2

theorem alookup_append_of_isSome {α : Type} (l₁ l₂ : List (String × α)) (k : String) (v : α)
    (h : alookup l₁ k = some v) : alookup (l₁ ++ l₂) k = some v := by
  induction l₁ with
  | nil => simp [alookup] at h
  | cons p rest ih =>
      obtain ⟨a, b⟩ := p
      by_cases hak : a = k
      · subst hak
        simp [alookup] at h ⊢
        exact h
      · simp [alookup, hak] at h ⊢
        exact ih h

theorem alookup_replaceEntry_self {α : Type} (l : List (String × α)) (k : String) (v : α)
    (h : (alookup l k).isSome) : alookup (replaceEntry l k v) k = some v := by
  induction l with
  | nil => simp [alookup] at h
  | cons p rest ih =>
      obtain ⟨a, b⟩ := p
      by_cases hak : a = k
      · subst hak; simp [replaceEntry, alookup]
      · have h' : (alookup rest k).isSome := by simpa [alookup, hak] using h
        simp [replaceEntry, alookup, hak, ih h']

theorem alookup_setAssoc_self {α : Type} (l : List (String × α)) (k : String) (v : α) :
    alookup (setAssoc l k v) k = some v := by
  unfold setAssoc
  split
  · exact alookup_replaceEntry_self l k v (by assumption)
  · rename_i h
    have hnm : k ∉ akeys l := by
      rw [← alookup_eq_none_iff]
      cases halt : alookup l k
      · rfl
      · exact absurd (by simp [halt]) h
    rw [alookup_append_of_not_mem _ _ _ hnm]
    simp [alookup]

theorem alookup_replaceEntry_ne {α : Type} (l : List (String × α)) (k k' : String) (v : α)
    (h : k' ≠ k) : alookup (replaceEntry l k v) k' = alookup l k' := by
  induction l with
  | nil => rfl
  | cons p rest ih =>
      obtain ⟨a, b⟩ := p
      by_cases hak : a = k
      · subst hak
        simp [replaceEntry, alookup, Ne.symm h]
      · simp [replaceEntry, alookup, hak, ih]

theorem alookup_setAssoc_ne {α : Type} (l : List (String × α)) (k k' : String) (v : α)
    (h : k' ≠ k) : alookup (setAssoc l k v) k' = alookup l k' := by
  unfold setAssoc
  split
  · exact alookup_replaceEntry_ne l k k' v h
  · cases halt : alookup l k' with
    | none =>
        rw [alookup_append_of_not_mem _ _ _ ((alookup_eq_none_iff l k').mp halt)]
        simp [alookup, Ne.symm h, halt]
    | some w => rw [alookup_append_of_isSome _ _ _ _ halt]

theorem akeys_replaceEntry {α : Type} (l : List (String × α)) (k : String) (v : α)
    (h : (alookup l k).isSome) : akeys (replaceEntry l k v) = akeys l := by
  induction l with
  | nil => rfl
  | cons p rest ih =>
      obtain ⟨a, b⟩ := p
      by_cases hak : a = k
      · subst hak; simp [replaceEntry, akeys]
      · have h' : (alookup rest k).isSome := by simpa [alookup, hak] using h
        have hih := ih h'
        simp [akeys] at hih
        simp [replaceEntry, akeys, hak, hih]

theorem akeys_setAssoc {α : Type} (l : List (String × α)) (k : String) (v : α) :
    akeys (setAssoc l k v) =
      if (alookup l k).isSome then akeys l else akeys l ++ [k] := by
  unfold setAssoc
  split
  · rename_i h; simp [h, akeys_replaceEntry l k v h]
  · rename_i h; simp [h, akeys]

theorem nodup_akeys_setAssoc {α : Type} (l : List (String × α)) (k : String) (v : α)
    (h : (akeys l).Nodup) : (akeys (setAssoc l k v)).Nodup := by
  rw [akeys_setAssoc]
  split
  · exact h
  · rename_i hns
    have hnm : k ∉ akeys l := by
      rw [← alookup_eq_none_iff]
      cases halt : alookup l k
      · rfl
      · exact absurd (by simp [halt]) hns
    simp [List.nodup_append, h, hnm]

theorem mem_replaceEntry_self {α : Type} (l : List (String × α)) (k : String) (v : α)
    (h : (alookup l k).isSome) : (k, v) ∈ replaceEntry l k v := by
  induction l with
  | nil => simp [alookup] at h
  | cons p rest ih =>
      obtain ⟨a, b⟩ := p
      by_cases hak : a = k
      · subst hak; simp [replaceEntry]
      · have h' : (alookup rest k).isSome := by simpa [alookup, hak] using h
        simp [replaceEntry, hak, ih h']

theorem mem_setAssoc_self {α : Type} (l : List (String × α)) (k : String) (v : α) :
    (k, v) ∈ setAssoc l k v := by
  unfold setAssoc
  split
  · exact mem_replaceEntry_self l k v (by assumption)
  · simp

/-! ## Lemmas: file primitives -/

theorem writeAt_prefix_length (f : List Tok) (pos : Nat) :
    (f.take pos ++ List.replicate (pos - f.length) (Tok.nat 0)).length = pos := by
  simp
  omega

theorem readAt_writeAt_at (f bs : List Tok) (pos a n : Nat) (h : a + n ≤ bs.length) :
    readAt (writeAt f pos bs) (pos + a) n = (bs.drop a).take n := by
  unfold readAt writeAt
  have hassoc :
      f.take pos ++ List.replicate (pos - f.length) (Tok.nat 0) ++ bs ++ f.drop (pos + bs.length)
        = (f.take pos ++ List.replicate (pos - f.length) (Tok.nat 0)) ++
            (bs ++ f.drop (pos + bs.length)) := by
    simp [List.append_assoc]
  rw [hassoc]
  have hlen := writeAt_prefix_length f pos
  rw [show pos + a = (f.take pos ++ List.replicate (pos - f.length) (Tok.nat 0)).length + a by
        rw [hlen]]
  rw [List.drop_append]
  rw [List.drop_append_of_le_length (by omega)]
  rw [List.take_append_of_le_length (by simp; omega)]

theorem readAt_writeAt_below (f bs : List Tok) (pos i n : Nat)
    (hp : pos ≤ f.length) (h : i + n ≤ pos) :
    readAt (writeAt f pos bs) i n = readAt f i n := by
  unfold readAt writeAt
  have hrep : pos - f.length = 0 := by omega
  rw [hrep]
  simp only [List.replicate_zero, List.append_nil]
  rw [List.append_assoc]
  rw [List.drop_append_of_le_length (by simp; omega)]
  rw [List.take_append_of_le_length (by simp; omega)]
  rw [List.drop_take pos i f]
  rw [List.take_take]
  congr 1
  omega

theorem writeAt_length_ge (f bs : List Tok) (pos : Nat) :
    pos + bs.length ≤ (writeAt f pos bs).length := by
  unfold writeAt
  simp
  omega

/-! ## Lemmas: codecs -/

theorem takeChars_map_ch (cs : List Char) (rest : List Tok) :
    takeChars cs.length (cs.map Tok.ch ++ rest) = some (cs, rest) := by
  induction cs with
  | nil => rfl
  | cons c cs ih => simp [takeChars, ih]

theorem marshalDumps_length_pos (v : PyVal) : 1 ≤ (marshalDumps v).length := by
  cases v <;> simp [marshalDumps]

mutual

theorem mLoad_dumps (v : PyVal) (rest : List Tok) (fuel : Nat)
    (h : (marshalDumps v).length ≤ fuel) :
    mLoad fuel (marshalDumps v ++ rest) = some (v, rest) := by
  cases fuel with
  | zero => exact absurd (Nat.le_trans (marshalDumps_length_pos v) h) (by omega)
  | succ f =>
    cases v with
    | int i => rfl
    | bool b => rfl
    | none => rfl
    | str s =>
        show mLoad (f + 1)
          (Tok.nat 3 :: Tok.nat s.length :: (s.data.map Tok.ch ++ rest)) = _
        have ht : takeChars s.length (List.map Tok.ch s.data ++ rest)
            = some (s.data, rest) := by
          rw [show s.length = s.data.length from rfl]
          exact takeChars_map_ch s.data rest
        simp [mLoad, ht]
    | list vs =>
        have hlen : (marshalDumpsList vs).length + 1 ≤ f := by
          simp [marshalDumps] at h; omega
        show mLoad (f + 1)
          (Tok.nat 4 :: Tok.nat vs.length :: (marshalDumpsList vs ++ rest)) = _
        simp [mLoad, mLoadList_dumps vs rest f hlen]

theorem mLoadList_dumps (vs : PyList) (rest : List Tok) (fuel : Nat)
    (h : (marshalDumpsList vs).length + 1 ≤ fuel) :
    mLoadList fuel vs.length (marshalDumpsList vs ++ rest) = some (vs, rest) := by
  cases fuel with
  | zero => omega
  | succ f =>
    cases vs with
    | nil => rfl
    | cons v vs' =>
        have h1 : (marshalDumps v).length ≤ f := by
          simp [marshalDumpsList] at h; omega
        have h2 : (marshalDumpsList vs').length + 1 ≤ f := by
          have hv := marshalDumps_length_pos v
          simp [marshalDumpsList] at h; omega
        show mLoadList (f + 1) (vs'.length + 1)
          ((marshalDumps v ++ marshalDumpsList vs') ++ rest) = _
        rw [List.append_assoc]
        simp [mLoadList, mLoad_dumps v (marshalDumpsList vs' ++ rest) f h1,
              mLoadList_dumps vs' rest f h2]

end

theorem marshalLoads_dumps (v : PyVal) : marshalLoads (marshalDumps v) = some v := by
  unfold marshalLoads
  have h := mLoad_dumps v [] ((marshalDumps v).length + 1) (by omega)
  rw [List.append_nil] at h
  rw [h]

theorem unpickleEntries_pickle (idx : List (String × Nat × Nat)) (rest : List Tok) :
    unpickleEntries idx.length (pickleEntries idx ++ rest) = some (idx, rest) := by
  induction idx with
  | nil => rfl
  | cons e es ih =>
      obtain ⟨k, o, sz⟩ := e
      show unpickleEntries (es.length + 1)
        ((Tok.nat k.length :: (k.data.map Tok.ch ++ [Tok.nat o, Tok.nat sz]) ++
          pickleEntries es) ++ rest) = _
      have hassoc :
          (Tok.nat k.length :: (k.data.map Tok.ch ++ [Tok.nat o, Tok.nat sz]) ++
            pickleEntries es) ++ rest
            = Tok.nat k.length ::
                (k.data.map Tok.ch ++
                  (Tok.nat o :: Tok.nat sz :: (pickleEntries es ++ rest))) := by
        simp [List.append_assoc]
      rw [hassoc]
      have ht : takeChars k.length
          (List.map Tok.ch k.data ++ (Tok.nat o :: Tok.nat sz :: (pickleEntries es ++ rest)))
          = some (k.data, Tok.nat o :: Tok.nat sz :: (pickleEntries es ++ rest)) := by
        rw [show k.length = k.data.length from rfl]
        exact takeChars_map_ch k.data _
      simp [unpickleEntries, ht, ih]

theorem unpickleIndices_pickle (idx : List (String × Nat × Nat)) (rest : List Tok) :
    unpickleIndices (pickleIndices idx ++ rest) = some idx := by
  show unpickleIndices (Tok.nat idx.length :: (pickleEntries idx ++ rest)) = _
  simp [unpickleIndices, unpickleEntries_pickle]

theorem unpickleIndices_empty : unpickleIndices [] = Option.none := rfl

/-! ## Lemmas: MmapDict flush -/

theorem readAt_writeAt_front (f buf ext : List Tok) (pos a n : Nat)
    (h : a + n ≤ buf.length) :
    readAt (writeAt f pos (buf ++ ext)) (pos + a) n = (buf.drop a).take n := by
  rw [readAt_writeAt_at f (buf ++ ext) pos a n (by simp; omega)]
  rw [List.drop_append_of_le_length (by omega)]
  rw [List.take_append_of_le_length (by simp; omega)]

theorem flushLoop_maxPos (c : List (String × PyVal)) (idx : List (String × Nat × Nat))
    (mp inc : Nat) :
    (flushLoop c idx mp inc).maxPos = mp + (flushLoop c idx mp inc).buffer.length := by
  induction c generalizing idx mp inc with
  | nil => simp [flushLoop]
  | cons p rest ih =>
      obtain ⟨k, v⟩ := p
      simp only [flushLoop]
      rw [ih]
      simp
      omega

theorem flushLoop_lookup_not_mem (c : List (String × PyVal))
    (idx : List (String × Nat × Nat)) (mp inc : Nat) (k : String)
    (h : k ∉ akeys c) :
    alookup (flushLoop c idx mp inc).indices k = alookup idx k := by
  induction c generalizing idx mp inc with
  | nil => rfl
  | cons p rest ih =>
      obtain ⟨k0, v0⟩ := p
      simp only [akeys, List.map_cons, List.mem_cons, not_or] at h
      simp only [flushLoop]
      rw [ih _ _ _ (by simpa [akeys] using h.2)]
      exact alookup_setAssoc_ne idx k0 k _ h.1

theorem flushLoop_spec (c : List (String × PyVal)) (idx : List (String × Nat × Nat))
    (mp inc : Nat) (k : String) (v : PyVal)
    (hnd : (akeys c).Nodup) (hmem : (k, v) ∈ c) :
    ∃ a, alookup (flushLoop c idx mp inc).indices k
          = some (mp + a, (marshalDumps v).length) ∧
      ((flushLoop c idx mp inc).buffer.drop a).take (marshalDumps v).length
          = marshalDumps v ∧
      a + (marshalDumps v).length ≤ (flushLoop c idx mp inc).buffer.length := by
  induction c generalizing idx mp inc with
  | nil => simp at hmem
  | cons p rest ih =>
      obtain ⟨k0, v0⟩ := p
      simp only [akeys, List.map_cons, List.nodup_cons] at hnd
      rcases List.mem_cons.mp hmem with heq | hmem'
      · obtain ⟨hk, hv⟩ := Prod.mk.injEq .. ▸ heq
        subst hk; subst hv
        refine ⟨0, ?_, ?_, ?_⟩
        · simp only [flushLoop]
          rw [flushLoop_lookup_not_mem _ _ _ _ _ (by simpa [akeys] using hnd.1)]
          rw [alookup_setAssoc_self]
          simp
        · simp only [flushLoop, List.drop_zero]
          exact List.take_left _ _
        · simp only [flushLoop]
          simp
      · have hk0 : k ≠ k0 := by
          intro hkk
          subst hkk
          exact hnd.1 (List.mem_map.mpr ⟨(k, v), hmem', rfl⟩)
        obtain ⟨a, h1, h2, h3⟩ := ih (setAssoc idx k0 (mp, (marshalDumps v0).length))
          (mp + (marshalDumps v0).length) (inc + (16 + k0.length)) hnd.2 hmem'
        refine ⟨(marshalDumps v0).length + a, ?_, ?_, ?_⟩
        · simp only [flushLoop]
          rw [h1]
          congr 2
          omega
        · simp only [flushLoop]
          rw [List.drop_append]
          exact h2
        · simp only [flushLoop]
          simp
          omega

theorem MmapDict.flushRaw_readOnly (s : MmapDict) (b : Bool) :
    (s.flushRaw b).readOnly = s.readOnly := by
  unfold MmapDict.flushRaw
  split
  · rfl
  · dsimp only
    split <;> rfl

theorem MmapDict.flushRaw_isClosed (s : MmapDict) (b : Bool) :
    (s.flushRaw b).isClosed = s.isClosed := by
  unfold MmapDict.flushRaw
  split
  · rfl
  · dsimp only
    split <;> rfl

theorem MmapDict.flushRaw_cacheSize (s : MmapDict) (b : Bool) :
    (s.flushRaw b).cacheSize = s.cacheSize := by
  unfold MmapDict.flushRaw
  split
  · rfl
  · dsimp only
    split <;> rfl

theorem MmapDict.flushRaw_cache (s : MmapDict) (b : Bool)
    (hro : s.readOnly = false) (hcl : s.isClosed = false) :
    (s.flushRaw b).cache = [] := by
  unfold MmapDict.flushRaw
  rw [hro, hcl]
  simp only [Bool.or_self, Bool.false_eq_true, if_false]
  split <;> rfl

theorem MmapDict.flushRaw_indices (s : MmapDict) (b : Bool)
    (hro : s.readOnly = false) (hcl : s.isClosed = false) :
    (s.flushRaw b).indices
      = (flushLoop s.cache s.indices s.file.maxPos s.increased).indices := by
  unfold MmapDict.flushRaw
  rw [hro, hcl]
  simp only [Bool.or_self, Bool.false_eq_true, if_false]
  split <;> rfl

theorem MmapDict.flushRaw_maxPos (s : MmapDict) (b : Bool)
    (hro : s.readOnly = false) (hcl : s.isClosed = false) :
    (s.flushRaw b).file.maxPos
      = (flushLoop s.cache s.indices s.file.maxPos s.increased).maxPos := by
  unfold MmapDict.flushRaw
  rw [hro, hcl]
  simp only [Bool.or_self, Bool.false_eq_true, if_false]
  split <;> rfl

theorem MmapDict.flushRaw_persists (s : MmapDict) (b : Bool) (k : String) (v : PyVal)
    (hro : s.readOnly = false) (hcl : s.isClosed = false)
    (hnd : (akeys s.cache).Nodup)
    (hwf1 : mmapHeaderSize ≤ s.file.maxPos)
    (hwf2 : s.file.maxPos - mmapHeaderSize ≤ s.file.payload.length)
    (hmem : (k, v) ∈ s.cache) :
    ∃ off, mmapHeaderSize ≤ off ∧
      off + (marshalDumps v).length ≤ (s.flushRaw b).file.maxPos ∧
      alookup (s.flushRaw b).indices k = some (off, (marshalDumps v).length) ∧
      readAt (s.flushRaw b).file.payload (off - mmapHeaderSize) (marshalDumps v).length
        = marshalDumps v := by
  obtain ⟨a, h1, h2, h3⟩ :=
    flushLoop_spec s.cache s.indices s.file.maxPos s.increased k v hnd hmem
  have hmp := flushLoop_maxPos s.cache s.indices s.file.maxPos s.increased
  refine ⟨s.file.maxPos + a, by omega, ?_, ?_, ?_⟩
  · rw [MmapDict.flushRaw_maxPos s b hro hcl]
    omega
  · rw [MmapDict.flushRaw_indices s b hro hcl]
    exact h1
  · have harith : s.file.maxPos + a - mmapHeaderSize
        = (s.file.maxPos - mmapHeaderSize) + a := by omega
    rw [harith]
    unfold MmapDict.flushRaw
    rw [hro, hcl]
    simp only [Bool.or_self, Bool.false_eq_true, if_false]
    split
    · -- index re-serialized: values followed by the pickled index
      show readAt (writeAt s.file.payload (s.file.maxPos - mmapHeaderSize)
        ((flushLoop s.cache s.indices s.file.maxPos s.increased).buffer ++
          pickleIndices (flushLoop s.cache s.indices s.file.maxPos s.increased).indices))
        ((s.file.maxPos - mmapHeaderSize) + a) (marshalDumps v).length = marshalDumps v
      rw [readAt_writeAt_front _ _ _ _ _ _ h3]
      exact h2
    · show readAt (writeAt s.file.payload (s.file.maxPos - mmapHeaderSize)
        (flushLoop s.cache s.indices s.file.maxPos s.increased).buffer)
        ((s.file.maxPos - mmapHeaderSize) + a) (marshalDumps v).length = marshalDumps v
      rw [readAt_writeAt_at _ _ _ _ _ h3]
      exact h2

theorem MmapDict.getitem_of_persisted (s : MmapDict) (k : String) (v : PyVal) (off : Nat)
    (hcache : s.cache = [])
    (hidx : alookup s.indices k = some (off, (marshalDumps v).length))
    (hread : readAt s.file.payload (off - mmapHeaderSize) (marshalDumps v).length
      = marshalDumps v) :
    s.getitem (.str k) = .ok v := by
  unfold MmapDict.getitem
  simp [cacheLookup, hcache, alookup, idxLookup, hidx, hread, marshalLoads_dumps]

theorem MmapDict.flushRaw_preserves_read (s : MmapDict) (b : Bool) (i n : Nat)
    (hro : s.readOnly = false) (hcl : s.isClosed = false)
    (hwf2 : s.file.maxPos - mmapHeaderSize ≤ s.file.payload.length)
    (h : i + n ≤ s.file.maxPos - mmapHeaderSize) :
    readAt (s.flushRaw b).file.payload i n = readAt s.file.payload i n := by
  unfold MmapDict.flushRaw
  rw [hro, hcl]
  simp only [Bool.or_self, Bool.false_eq_true, if_false]
  split
  · exact readAt_writeAt_below _ _ _ _ _ hwf2 h
  · exact readAt_writeAt_below _ _ _ _ _ hwf2 h

theorem MmapDict.flushRaw_empty_cache (s : MmapDict) (b : Bool)
    (hro : s.readOnly = false) (hcl : s.isClosed = false) (hcache : s.cache = []) :
    (s.flushRaw b).indices = s.indices ∧ (s.flushRaw b).file.maxPos = s.file.maxPos := by
  constructor
  · rw [MmapDict.flushRaw_indices s b hro hcl, hcache]
    rfl
  · rw [MmapDict.flushRaw_maxPos s b hro hcl, hcache]
    rfl

theorem MmapDict.flushRaw_wf (s : MmapDict) (b : Bool)
    (hro : s.readOnly = false) (hcl : s.isClosed = false) (hwf : s.wf) :
    (s.flushRaw b).wf := by
  obtain ⟨hwf1, hwf2, _⟩ := hwf
  have hmp := flushLoop_maxPos s.cache s.indices s.file.maxPos s.increased
  refine ⟨?_, ?_, ?_⟩
  · rw [MmapDict.flushRaw_maxPos s b hro hcl]
    omega
  · rw [MmapDict.flushRaw_maxPos s b hro hcl]
    unfold MmapDict.flushRaw
    rw [hro, hcl]
    simp only [Bool.or_self, Bool.false_eq_true, if_false]
    split
    · have := writeAt_length_ge s.file.payload
        ((flushLoop s.cache s.indices s.file.maxPos s.increased).buffer ++
          pickleIndices (flushLoop s.cache s.indices s.file.maxPos s.increased).indices)
        (s.file.maxPos - mmapHeaderSize)
      simp at this
      simp
      omega
    · have := writeAt_length_ge s.file.payload
        (flushLoop s.cache s.indices s.file.maxPos s.increased).buffer
        (s.file.maxPos - mmapHeaderSize)
      simp
      omega
  · rw [MmapDict.flushRaw_cache s b hro hcl]
    simp [akeys]

theorem MmapDict.flush_eq_raw (s : MmapDict)
    (hro : s.readOnly = false) (hcl : s.isClosed = false) (b : Bool) :
    s.flush b = s.flushRaw b := by
  unfold MmapDict.flush
  rw [hro, hcl]
  simp

theorem MmapDict.setitem_eq (s : MmapDict) (k : PyKey) (v : PyVal)
    (hro : s.readOnly = false) :
    s.setitem k v
      = if s.cacheSize < (setAssoc s.cache k.toStr v).length
        then ({ s with cache := setAssoc s.cache k.toStr v } : MmapDict).flush false
        else { s with cache := setAssoc s.cache k.toStr v } := by
  unfold MmapDict.setitem
  rw [hro]
  rfl

theorem mmap_set_flush_get (s : MmapDict) (k : String) (v : PyVal)
    (hwf : s.wf) (hro : s.readOnly = false) (hcl : s.isClosed = false) :
    ((s.setitem (.str k) v).flush false).getitem (.str k) = .ok v := by
  obtain ⟨hwf1, hwf2, hwf3⟩ := hwf
  have hnd1 : (akeys (setAssoc s.cache k v)).Nodup := nodup_akeys_setAssoc _ _ _ hwf3
  have hmem : (k, v) ∈ setAssoc s.cache k v := mem_setAssoc_self _ _ _
  set s1 : MmapDict := { s with cache := setAssoc s.cache k v } with hs1def
  have hs1ro : s1.readOnly = false := hro
  have hs1cl : s1.isClosed = false := hcl
  have hset : s.setitem (.str k) v
      = if s.cacheSize < (setAssoc s.cache k v).length then s1.flush false else s1 :=
    MmapDict.setitem_eq s (.str k) v hro
  rw [hset]
  by_cases htrig : s.cacheSize < (setAssoc s.cache k v).length
  · rw [if_pos htrig]
    rw [MmapDict.flush_eq_raw s1 hs1ro hs1cl false]
    obtain ⟨off, ho1, ho2, hidx, hread⟩ :=
      MmapDict.flushRaw_persists s1 false k v hs1ro hs1cl hnd1 hwf1 hwf2 hmem
    have hs2ro : (s1.flushRaw false).readOnly = false := by
      rw [MmapDict.flushRaw_readOnly]; exact hs1ro
    have hs2cl : (s1.flushRaw false).isClosed = false := by
      rw [MmapDict.flushRaw_isClosed]; exact hs1cl
    have hs2wf : (s1.flushRaw false).wf :=
      MmapDict.flushRaw_wf s1 false hs1ro hs1cl ⟨hwf1, hwf2, hnd1⟩
    have hs2cache : (s1.flushRaw false).cache = [] :=
      MmapDict.flushRaw_cache s1 false hs1ro hs1cl
    rw [MmapDict.flush_eq_raw _ hs2ro hs2cl false]
    have hemp := MmapDict.flushRaw_empty_cache _ false hs2ro hs2cl hs2cache
    apply MmapDict.getitem_of_persisted _ k v off
    · exact MmapDict.flushRaw_cache _ false hs2ro hs2cl
    · rw [hemp.1]; exact hidx
    · rw [MmapDict.flushRaw_preserves_read _ false _ _ hs2ro hs2cl hs2wf.2.1 (by omega)]
      exact hread
  · rw [if_neg htrig]
    rw [MmapDict.flush_eq_raw s1 hs1ro hs1cl false]
    obtain ⟨off, ho1, ho2, hidx, hread⟩ :=
      MmapDict.flushRaw_persists s1 false k v hs1ro hs1cl hnd1 hwf1 hwf2 hmem
    exact MmapDict.getitem_of_persisted _ k v off
      (MmapDict.flushRaw_cache s1 false hs1ro hs1cl) hidx hread

/-! ## Lemmas: SQLiteDict -/

theorem alookup_map_snd {α β : Type} (f : α → β) (c : List (String × α)) (k : String) :
    alookup (c.map (fun p => (p.1, f p.2))) k = (alookup c k).map f := by
  induction c with
  | nil => rfl
  | cons p rest ih =>
      obtain ⟨a, b⟩ := p
      by_cases hak : a = k
      · subst hak; simp [alookup]
      · simp [alookup, hak, ih]

theorem insertRows_ok (rows : List (String × List Tok)) (c : List (String × PyVal))
    (hnd : (akeys c).Nodup)
    (hfresh : ∀ key ∈ akeys c, alookup rows key = Option.none) :
    insertRows rows c = .ok (rows ++ c.map (fun p => (p.1, marshalDumps p.2))) := by
  induction c generalizing rows with
  | nil => simp [insertRows]
  | cons p rest ih =>
      obtain ⟨k, v⟩ := p
      simp only [akeys, List.map_cons, List.nodup_cons] at hnd
      have hk : alookup rows k = Option.none := hfresh k (by simp [akeys])
      simp only [insertRows, hk, Option.isSome_none, Bool.false_eq_true, if_false]
      rw [ih (rows ++ [(k, marshalDumps v)]) hnd.2]
      · simp
      · intro key hkey
        have hkne : key ≠ k := by
          intro hkk
          subst hkk
          exact hnd.1 (by simpa [akeys] using hkey)
        have h1 : alookup rows key = Option.none := by
          apply hfresh
          show key ∈ akeys ((k, v) :: rest)
          simp only [akeys, List.map_cons]
          exact List.mem_cons_of_mem _ (by simpa [akeys] using hkey)
        rw [alookup_append_of_not_mem _ _ _ ((alookup_eq_none_iff rows key).mp h1)]
        simp [alookup, Ne.symm hkne]

theorem insertRows_conflict (rows : List (String × List Tok)) (c : List (String × PyVal))
    (h : ∃ key ∈ akeys c, (alookup rows key).isSome) :
    insertRows rows c = .error .integrityError := by
  induction c generalizing rows with
  | nil =>
      obtain ⟨key, hk, _⟩ := h
      simp [akeys] at hk
  | cons p rest ih =>
      obtain ⟨k, v⟩ := p
      by_cases hk : (alookup rows k).isSome
      · simp [insertRows, hk]
      · obtain ⟨key, hkey, hsome⟩ := h
        have hkr : key ∈ akeys rest := by
          rcases (by simpa [akeys] using hkey : key = k ∨ key ∈ List.map Prod.fst rest)
            with h1 | h2
          · subst h1; exact absurd hsome hk
          · simpa [akeys] using h2
        simp only [insertRows, hk, Bool.false_eq_true, if_false]
        apply ih
        refine ⟨key, hkr, ?_⟩
        cases hlk : alookup rows key with
        | none => rw [hlk] at hsome; simp at hsome
        | some w => simp [alookup_append_of_isSome _ _ _ _ hlk]

theorem SQLiteDict.setTable_current (s : SQLiteDict)
    (h : (alookup s.tables s.currentTable).isSome) :
    s.setTable s.currentTable = s := by
  unfold SQLiteDict.setTable
  rw [if_pos h]

theorem SQLiteDict.currentCache_setCaches (s : SQLiteDict) (c : List (String × PyVal)) :
    ({ s with caches := setAssoc s.caches s.currentTable c } : SQLiteDict).currentCache
      = c := by
  unfold SQLiteDict.currentCache
  simp [alookup_setAssoc_self]

theorem SQLiteDict.flushRaw_single (s : SQLiteDict) (rows : List (String × List Tok))
    (hrows : alookup s.tables s.currentTable = some rows)
    (hnd : (akeys s.currentCache).Nodup)
    (hfresh : ∀ key ∈ akeys s.currentCache, alookup rows key = Option.none) :
    s.flushRaw false
      = if s.currentCache.length = 0 then (s, Option.none)
        else (s.afterFlush rows, Option.none) := by
  have hsome : (alookup s.tables s.currentTable).isSome := by simp [hrows]
  unfold SQLiteDict.afterFlush
  unfold SQLiteDict.flushRaw
  dsimp only
  simp only [SQLiteDict.flushTables]
  rw [SQLiteDict.setTable_current s hsome]
  by_cases hc : s.currentCache.length = 0
  · rw [if_pos hc, if_pos hc]
    simp only [SQLiteDict.flushTables]
    rw [SQLiteDict.setTable_current s hsome]
  · rw [if_neg hc, if_neg hc]
    rw [hrows]
    simp only [Option.getD_some]
    rw [insertRows_ok rows s.currentCache hnd hfresh]
    simp only [SQLiteDict.flushTables]
    rw [show ({ s with
        tables := setAssoc s.tables s.currentTable
          (rows ++ s.currentCache.map (fun p => (p.1, marshalDumps p.2))),
        caches := setAssoc s.caches s.currentTable [] } : SQLiteDict).setTable s.currentTable
        = { s with
        tables := setAssoc s.tables s.currentTable
          (rows ++ s.currentCache.map (fun p => (p.1, marshalDumps p.2))),
        caches := setAssoc s.caches s.currentTable [] } from
      SQLiteDict.setTable_current _ (by simp [alookup_setAssoc_self])]

theorem SQLiteDict.flushRaw_conflict (s : SQLiteDict) (rows : List (String × List Tok))
    (hrows : alookup s.tables s.currentTable = some rows)
    (hconf : ∃ key ∈ akeys s.currentCache, (alookup rows key).isSome) :
    s.flushRaw false = (s, some PyErr.integrityError) := by
  have hsome : (alookup s.tables s.currentTable).isSome := by simp [hrows]
  have hc : ¬s.currentCache.length = 0 := by
    obtain ⟨key, hk, _⟩ := hconf
    intro h0
    rw [List.length_eq_zero] at h0
    rw [h0] at hk
    simp [akeys] at hk
  unfold SQLiteDict.flushRaw
  dsimp only
  simp only [SQLiteDict.flushTables]
  rw [SQLiteDict.setTable_current s hsome]
  rw [if_neg hc]
  rw [hrows]
  simp only [Option.getD_some]
  rw [insertRows_conflict rows s.currentCache hconf]

theorem SQLiteDict.sqlFlush_eq_raw (s : SQLiteDict)
    (hro : s.readOnly = false) (hcl : s.isClosed = false) (b : Bool) :
    s.flush b = s.flushRaw b := by
  unfold SQLiteDict.flush
  rw [hro, hcl]
  simp

theorem SQLiteDict.withSet_currentCache (s : SQLiteDict) (k : String) (v : PyVal) :
    (s.withSet k v).currentCache = setAssoc s.currentCache k v :=
  SQLiteDict.currentCache_setCaches s _

theorem SQLiteDict.afterFlush_currentCache (s : SQLiteDict)
    (rows : List (String × List Tok)) :
    (s.afterFlush rows).currentCache = [] := by
  unfold SQLiteDict.afterFlush SQLiteDict.currentCache
  simp [alookup_setAssoc_self]

theorem SQLiteDict.clearCurrent_currentCache (s : SQLiteDict) :
    s.clearCurrent.currentCache = [] := by
  unfold SQLiteDict.clearCurrent SQLiteDict.currentCache
  simp [alookup_setAssoc_self]

theorem SQLiteDict.afterFlush_rows (s : SQLiteDict) (rows : List (String × List Tok)) :
    alookup (s.afterFlush rows).tables (s.afterFlush rows).currentTable
      = some (rows ++ s.currentCache.map (fun p => (p.1, marshalDumps p.2))) :=
  alookup_setAssoc_self _ _ _

theorem SQLiteDict.getitemSingle_db (s : SQLiteDict) (k : String) (v : PyVal)
    (rows2 : List (String × List Tok))
    (hcc : s.currentCache = [])
    (htab : alookup s.tables s.currentTable = some rows2)
    (hrow : alookup rows2 k = some (marshalDumps v)) :
    s.getitemSingle k = .ok v := by
  unfold SQLiteDict.getitemSingle
  rw [hcc, htab]
  simp [alookup, hrow, marshalLoads_dumps]

theorem SQLiteDict.sqlSetitem_eq (s : SQLiteDict) (k : String) (v : PyVal)
    (hro : s.readOnly = false) :
    s.setitem k v
      = if s.cacheSize ≤ (setAssoc s.currentCache k v).length then
          (match ((s.withSet k v).flush false).2 with
           | some e => (((s.withSet k v).flush false).1, some e)
           | Option.none =>
               (((s.withSet k v).flush false).1.clearCurrent, Option.none))
        else (s.withSet k v, Option.none) := by
  unfold SQLiteDict.setitem SQLiteDict.withSet SQLiteDict.clearCurrent
  rw [if_neg (show ¬s.readOnly = true by simp [hro])]

theorem sql_set_flush_get (s : SQLiteDict) (k : String) (v : PyVal)
    (rows : List (String × List Tok))
    (hro : s.readOnly = false) (hcl : s.isClosed = false)
    (hrows : alookup s.tables s.currentTable = some rows)
    (hndc : (akeys s.currentCache).Nodup)
    (hfresh : ∀ key ∈ akeys (setAssoc s.currentCache k v),
      alookup rows key = Option.none) :
    (s.setitem k v).2 = Option.none ∧
    ((s.setitem k v).1.flush false).2 = Option.none ∧
    ((s.setitem k v).1.flush false).1.getitemSingle k = .ok v := by
  have hmem : (k, v) ∈ setAssoc s.currentCache k v := mem_setAssoc_self _ _ _
  have hnd1 : (akeys (setAssoc s.currentCache k v)).Nodup :=
    nodup_akeys_setAssoc _ _ _ hndc
  have hc1ne : ¬(setAssoc s.currentCache k v).length = 0 := by
    intro h0
    rw [List.length_eq_zero] at h0
    rw [h0] at hmem
    simp at hmem
  have hw_cc := SQLiteDict.withSet_currentCache s k v
  have hwrows : alookup (s.withSet k v).tables (s.withSet k v).currentTable
      = some rows := hrows
  have hflush1 : (s.withSet k v).flushRaw false
      = ((s.withSet k v).afterFlush rows, Option.none) := by
    rw [SQLiteDict.flushRaw_single _ rows hwrows (by rw [hw_cc]; exact hnd1)
        (by rw [hw_cc]; exact hfresh)]
    rw [hw_cc]
    rw [if_neg hc1ne]
  have haf_rows : alookup ((s.withSet k v).afterFlush rows).tables
      ((s.withSet k v).afterFlush rows).currentTable
      = some (rows ++ (setAssoc s.currentCache k v).map
          (fun p => (p.1, marshalDumps p.2))) := by
    have h := SQLiteDict.afterFlush_rows (s.withSet k v) rows
    rwa [hw_cc] at h
  have hrowlk : alookup
      (rows ++ (setAssoc s.currentCache k v).map (fun p => (p.1, marshalDumps p.2))) k
      = some (marshalDumps v) := by
    have hknr : k ∉ akeys rows := by
      rw [← alookup_eq_none_iff]
      exact hfresh k (List.mem_map.mpr ⟨(k, v), hmem, rfl⟩)
    rw [alookup_append_of_not_mem _ _ _ hknr, alookup_map_snd, alookup_setAssoc_self]
    rfl
  rw [SQLiteDict.sqlSetitem_eq s k v hro]
  by_cases htrig : s.cacheSize ≤ (setAssoc s.currentCache k v).length
  · -- the set call itself triggered a (successful) flush, then cleared again
    rw [if_pos htrig]
    rw [SQLiteDict.sqlFlush_eq_raw (s.withSet k v) hro hcl false, hflush1]
    dsimp only
    have hcc3 : ((s.withSet k v).afterFlush rows).clearCurrent.currentCache = [] :=
      SQLiteDict.clearCurrent_currentCache _
    have hrows3 : alookup ((s.withSet k v).afterFlush rows).clearCurrent.tables
        ((s.withSet k v).afterFlush rows).clearCurrent.currentTable
        = some (rows ++ (setAssoc s.currentCache k v).map
            (fun p => (p.1, marshalDumps p.2))) := haf_rows
    have hflush3 : ((s.withSet k v).afterFlush rows).clearCurrent.flushRaw false
        = (((s.withSet k v).afterFlush rows).clearCurrent, Option.none) := by
      rw [SQLiteDict.flushRaw_single _ _ hrows3 (by rw [hcc3]; simp [akeys])
          (by intro key hkey; rw [hcc3] at hkey; simp [akeys] at hkey)]
      rw [hcc3]
      simp
    refine ⟨rfl, ?_, ?_⟩
    · rw [SQLiteDict.sqlFlush_eq_raw (((s.withSet k v).afterFlush rows).clearCurrent)
        hro hcl false, hflush3]
    · rw [SQLiteDict.sqlFlush_eq_raw (((s.withSet k v).afterFlush rows).clearCurrent)
        hro hcl false, hflush3]
      exact SQLiteDict.getitemSingle_db _ k v _ hcc3 hrows3 hrowlk
  · rw [if_neg htrig]
    dsimp only
    refine ⟨rfl, ?_, ?_⟩
    · rw [SQLiteDict.sqlFlush_eq_raw (s.withSet k v) hro hcl false, hflush1]
    · rw [SQLiteDict.sqlFlush_eq_raw (s.withSet k v) hro hcl false, hflush1]
      exact SQLiteDict.getitemSingle_db _ k v _
        (SQLiteDict.afterFlush_currentCache _ _) haf_rows hrowlk

/-! ## Additional lemmas for the multi-key fetch and key-coercion claims -/

theorem mem_akeys_iff {α : Type} (l : List (String × α)) (k : String) :
    k ∈ akeys l ↔ ∃ x, (k, x) ∈ l := by
  constructor
  · intro h
    obtain ⟨p, hp, hfst⟩ := List.mem_map.mp h
    exact ⟨p.2, hfst ▸ hp⟩
  · rintro ⟨x, hx⟩
    exact List.mem_map.mpr ⟨(k, x), hx, rfl⟩

theorem alookup_of_mem_nodup {α : Type} (l : List (String × α)) (k : String) (x : α)
    (hnd : (akeys l).Nodup) (hmem : (k, x) ∈ l) : alookup l k = some x := by
  induction l with
  | nil => simp at hmem
  | cons p rest ih =>
      obtain ⟨a, b⟩ := p
      simp only [akeys, List.map_cons, List.nodup_cons] at hnd
      rcases List.mem_cons.mp hmem with heq | hmem'
      · have hk : k = a := congrArg Prod.fst heq
        have hx : x = b := congrArg Prod.snd heq
        subst hk
        subst hx
        simp [alookup]
      · have hka : ¬a = k := by
          intro hkk
          apply hnd.1
          rw [hkk]
          exact List.mem_map.mpr ⟨(k, x), hmem', rfl⟩
        simp only [alookup, hka, if_false]
        exact ih hnd.2 hmem'

theorem decodeBlobs_total (blobs : List (List Tok))
    (h : ∀ b ∈ blobs, ∃ v, marshalLoads b = some v) :
    ∃ vs, decodeBlobs blobs = some vs ∧ vs.length = blobs.length := by
  induction blobs with
  | nil => exact ⟨[], rfl, rfl⟩
  | cons b rest ih =>
      obtain ⟨v, hv⟩ := h b (by simp)
      obtain ⟨vs, hvs, hlen⟩ := ih (fun b2 hb2 => h b2 (by simp [hb2]))
      refine ⟨v :: vs, ?_, by simp [hlen]⟩
      simp [decodeBlobs, hv, hvs]

/-- C1: Round-trip: for every supported primitive or nested-primitive value
`v` and every (string) key `k`, on either backend, the sequence
`set(k, v); flush(); get(k)` returns a value equal to `v`.  On the mapped
backend this holds for any well-formed writable open handle; on the relational
backend the key (and any other pending cache key) must not already exist as a
row of the current table, since the plain-`INSERT` flush would otherwise raise
instead of reaching the get. -/
theorem roundtrip_set_flush_get :
    (∀ (s : MmapDict) (k : String) (v : PyVal),
      s.wf → s.readOnly = false → s.isClosed = false →
      ((s.setitem (.str k) v).flush false).getitem (.str k) = .ok v) ∧
    (∀ (s : SQLiteDict) (k : String) (v : PyVal) (rows : List (String × List Tok)),
      s.readOnly = false → s.isClosed = false →
      alookup s.tables s.currentTable = some rows →
      (akeys s.currentCache).Nodup →
      (∀ key ∈ akeys (setAssoc s.currentCache k v), alookup rows key = Option.none) →
      (s.setitem k v).2 = Option.none ∧
      ((s.setitem k v).1.flush false).2 = Option.none ∧
      ((s.setitem k v).1.flush false).1.getitemSingle k = .ok v) :=
  ⟨fun s k v hwf hro hcl => mmap_set_flush_get s k v hwf hro hcl,
   fun s k v rows hro hcl hrows hnd hfresh =>
     sql_set_flush_get s k v rows hro hcl hrows hnd hfresh⟩

/-- Witness for C1 at concrete inputs: a fresh mapped store and a fresh
relational store round-trip the nested value `[7, "seven"]` under key
`"k"`. -/
theorem roundtrip_set_flush_get_witness :
    (((mmapFresh 250).setitem (.str "k")
        (.list (.cons (.int 7) (.cons (.str "seven") .nil)))).flush false).getitem
        (.str "k")
      = .ok (.list (.cons (.int 7) (.cons (.str "seven") .nil))) ∧
    ((sqlFresh.setitem "k" (.int 7)).2 = Option.none ∧
     ((sqlFresh.setitem "k" (.int 7)).1.flush false).2 = Option.none ∧
     ((sqlFresh.setitem "k" (.int 7)).1.flush false).1.getitemSingle "k"
       = .ok (.int 7)) :=
  ⟨roundtrip_set_flush_get.1 (mmapFresh 250) "k"
      (.list (.cons (.int 7) (.cons (.str "seven") .nil)))
      ⟨by decide, by decide, by decide⟩ rfl rfl,
   roundtrip_set_flush_get.2 sqlFresh "k" (.int 7) [] rfl rfl (by decide)
      (by decide) (by decide)⟩

/-- C9 (implicit): `SQLiteDict._flush` persists the write-cache with a plain
`INSERT` (not `INSERT OR REPLACE`): for a key already present as a row of the
current table, set-then-flush raises the database's primary-key uniqueness
error (`IntegrityError`), the table keeps its old rows, and the write-cache
for the table is not cleared. -/
theorem sqlite_flush_plain_insert :
    ∀ (s : SQLiteDict) (k : String) (v : PyVal) (rows : List (String × List Tok)),
      s.readOnly = false → s.isClosed = false →
      alookup s.tables s.currentTable = some rows →
      (alookup rows k).isSome →
      (setAssoc s.currentCache k v).length < s.cacheSize →
      (s.setitem k v).2 = Option.none ∧
      ((s.setitem k v).1.flush false).2 = some PyErr.integrityError ∧
      ((s.setitem k v).1.flush false).1.currentCache = setAssoc s.currentCache k v ∧
      ((s.setitem k v).1.flush false).1.tables = s.tables := by
  intro s k v rows hro hcl hrows hkrow hnotrig
  have hw_cc := SQLiteDict.withSet_currentCache s k v
  have hwrows : alookup (s.withSet k v).tables (s.withSet k v).currentTable
      = some rows := hrows
  have hconf : ∃ key ∈ akeys (s.withSet k v).currentCache,
      (alookup rows key).isSome := by
    rw [hw_cc]
    exact ⟨k, List.mem_map.mpr ⟨(k, v), mem_setAssoc_self _ _ _, rfl⟩, hkrow⟩
  have hcf := SQLiteDict.flushRaw_conflict (s.withSet k v) rows hwrows hconf
  rw [SQLiteDict.sqlSetitem_eq s k v hro]
  rw [if_neg (by omega : ¬s.cacheSize ≤ (setAssoc s.currentCache k v).length)]
  dsimp only
  rw [SQLiteDict.sqlFlush_eq_raw (s.withSet k v) hro hcl false, hcf]
  exact ⟨rfl, rfl, hw_cc, rfl⟩

/-- Witness for C9: on a store whose default table already holds a row for
`"k"`, set-then-flush of `"k"` raises `IntegrityError`, with the cache entry
retained and the table unchanged. -/
theorem sqlite_flush_plain_insert_witness :
    (sqlOneRow.setitem "k" (.int 2)).2 = Option.none ∧
    ((sqlOneRow.setitem "k" (.int 2)).1.flush false).2 = some PyErr.integrityError ∧
    ((sqlOneRow.setitem "k" (.int 2)).1.flush false).1.currentCache
      = setAssoc sqlOneRow.currentCache "k" (.int 2) ∧
    ((sqlOneRow.setitem "k" (.int 2)).1.flush false).1.tables = sqlOneRow.tables :=
  sqlite_flush_plain_insert sqlOneRow "k" (.int 2) [("k", marshalDumps (.int 1))]
    rfl rfl (by decide) (by decide) (by decide)

/-- C4 (corrected): on a read-only `SQLiteDict`, `delete`, `update` and
`clear` are silent no-ops that leave cache and database unchanged, but `set`
is **not** a no-op: `__setitem__` raises `RuntimeError` (while leaving the
state unchanged). -/
theorem sqlite_read_only_write_semantics :
    ∀ (s : SQLiteDict) (k : String) (v : PyVal) (keys : List String)
      (items : List (String × PyVal)),
      s.readOnly = true →
      s.setitem k v
        = (s, some (.runtimeError "Cannot __setitem__ for this Dict in read_only mode.")) ∧
      s.delitem keys = (s, Option.none) ∧
      s.update items = (s, Option.none) ∧
      s.clear = (s, Option.none) := by
  intro s k v keys items hro
  refine ⟨?_, ?_, ?_, ?_⟩
  · unfold SQLiteDict.setitem
    rw [if_pos hro]
  · unfold SQLiteDict.delitem
    rw [if_pos hro]
  · unfold SQLiteDict.update
    rw [if_pos hro]
  · unfold SQLiteDict.clear
    rw [if_pos hro]

/-- Witness for the amended C4 at a concrete read-only handle. -/
theorem sqlite_read_only_write_semantics_witness :
    roSql.setitem "k" (.int 1)
      = (roSql, some (.runtimeError "Cannot __setitem__ for this Dict in read_only mode.")) ∧
    roSql.delitem ["k"] = (roSql, Option.none) ∧
    roSql.update [("k", .int 1)] = (roSql, Option.none) ∧
    roSql.clear = (roSql, Option.none) :=
  sqlite_read_only_write_semantics roSql "k" (.int 1) ["k"] [("k", .int 1)] rfl

/-- Counterexample for C4 as stated: the claim says every `set` call on a
read-only `SQLiteDict` is silently ignored and does not raise, but on a
concrete read-only handle `__setitem__` raises `RuntimeError`. -/
theorem sqlite_read_only_counterexample :
    (roSql.setitem "k" (.int 1)).2
      = some (.runtimeError "Cannot __setitem__ for this Dict in read_only mode.") := by
  rfl

/-- C5 (code bug): `MmapDict.__delitem__` of a key pending in the write-cache
executes `del self._cache_dict`, removing the whole cache attribute instead of
the single entry (so every other pending entry is lost and later cache
accesses raise `AttributeError`); deleting a key that lives only in the index
does remove exactly that index entry, and delete on a read-only handle is a
no-op. -/
theorem mmap_delete_cache_bug :
    mmapCacheAB.delitem (.str "a") = .cacheAttrDeleted ∧
    mmapOneIndexed.delitem (.str "x")
      = .ok { mmapOneIndexed with indices := [] } ∧
    ({ mmapCacheAB with readOnly := true } : MmapDict).delitem (.str "a")
      = .ok { mmapCacheAB with readOnly := true } := by
  refine ⟨rfl, ?_, rfl⟩
  rfl

/-- C8 (code bug): every dictionary operation on a `TableDict` view enters
`table_context`, which reads the never-assigned attribute `_table_name`
(`__init__` stores the name in `_name`), so the operation raises
`AttributeError` before any table switch or dictionary work happens, for every
view and every argument. -/
theorem table_view_attribute_bug :
    ∀ (td : TableDict) (k : String) (v : PyVal) (keys : List String),
      td.setitem k v = (td, some (.attributeError tableDictAttrMsg)) ∧
      td.getitem k = (td, .error (.attributeError tableDictAttrMsg)) ∧
      td.delitem keys = (td, some (.attributeError tableDictAttrMsg)) ∧
      td.containsKey k = (td, .error (.attributeError tableDictAttrMsg)) ∧
      td.flush = (td, some (.attributeError tableDictAttrMsg)) := by
  intro td k v keys
  exact ⟨rfl, rfl, rfl, rfl, rfl⟩

theorem sql_setitem_trig (s : SQLiteDict) (k : String) (v : PyVal)
    (rows : List (String × List Tok))
    (hro : s.readOnly = false) (hcl : s.isClosed = false)
    (hrows : alookup s.tables s.currentTable = some rows)
    (hndc : (akeys s.currentCache).Nodup)
    (hfresh : ∀ key ∈ akeys (setAssoc s.currentCache k v),
      alookup rows key = Option.none)
    (htrig : s.cacheSize ≤ (setAssoc s.currentCache k v).length) :
    s.setitem k v = (((s.withSet k v).afterFlush rows).clearCurrent, Option.none) := by
  have hmem : (k, v) ∈ setAssoc s.currentCache k v := mem_setAssoc_self _ _ _
  have hnd1 : (akeys (setAssoc s.currentCache k v)).Nodup :=
    nodup_akeys_setAssoc _ _ _ hndc
  have hc1ne : ¬(setAssoc s.currentCache k v).length = 0 := by
    intro h0
    rw [List.length_eq_zero] at h0
    rw [h0] at hmem
    simp at hmem
  have hw_cc := SQLiteDict.withSet_currentCache s k v
  have hwrows : alookup (s.withSet k v).tables (s.withSet k v).currentTable
      = some rows := hrows
  have hflush1 : (s.withSet k v).flushRaw false
      = ((s.withSet k v).afterFlush rows, Option.none) := by
    rw [SQLiteDict.flushRaw_single _ rows hwrows (by rw [hw_cc]; exact hnd1)
        (by rw [hw_cc]; exact hfresh)]
    rw [hw_cc]
    rw [if_neg hc1ne]
  rw [SQLiteDict.sqlSetitem_eq s k v hro]
  rw [if_pos htrig]
  rw [SQLiteDict.sqlFlush_eq_raw (s.withSet k v) hro hcl false, hflush1]

/-- C7: Capacity-triggered flush.  On a writable `MmapDict`, `set` triggers an
automatic flush exactly when the write-cache size exceeds `cache_size` after
the insertion: at or below capacity the only effect is the cache insertion;
above it the cache is emptied out and the key lands in the index.  On a
writable `SQLiteDict`, `set` triggers a flush once the cache size reaches
`cache_size`: below capacity the only effect is the cache insertion; at or
above it the cache is cleared and the key's marshalled value becomes a row of
the current table. -/
theorem capacity_triggered_flush :
    (∀ (s : MmapDict) (k : PyKey) (v : PyVal),
      s.readOnly = false →
      (setAssoc s.cache k.toStr v).length ≤ s.cacheSize →
      s.setitem k v = { s with cache := setAssoc s.cache k.toStr v }) ∧
    (∀ (s : MmapDict) (k : PyKey) (v : PyVal),
      s.readOnly = false → s.isClosed = false → s.wf →
      s.cacheSize < (setAssoc s.cache k.toStr v).length →
      (s.setitem k v).cache = [] ∧
      ∃ off, alookup (s.setitem k v).indices k.toStr
        = some (off, (marshalDumps v).length)) ∧
    (∀ (s : SQLiteDict) (k : String) (v : PyVal),
      s.readOnly = false →
      (setAssoc s.currentCache k v).length < s.cacheSize →
      s.setitem k v = (s.withSet k v, Option.none)) ∧
    (∀ (s : SQLiteDict) (k : String) (v : PyVal) (rows : List (String × List Tok)),
      s.readOnly = false → s.isClosed = false →
      alookup s.tables s.currentTable = some rows →
      (akeys s.currentCache).Nodup →
      (∀ key ∈ akeys (setAssoc s.currentCache k v), alookup rows key = Option.none) →
      s.cacheSize ≤ (setAssoc s.currentCache k v).length →
      (s.setitem k v).2 = Option.none ∧
      (s.setitem k v).1.currentCache = [] ∧
      alookup ((alookup (s.setitem k v).1.tables (s.setitem k v).1.currentTable).getD [])
        k = some (marshalDumps v)) := by
  refine ⟨?_, ?_, ?_, ?_⟩
  · intro s k v hro hle
    rw [MmapDict.setitem_eq s k v hro]
    rw [if_neg (by omega)]
  · intro s k v hro hcl hwf htrig
    obtain ⟨hwf1, hwf2, hwf3⟩ := hwf
    have hnd1 : (akeys (setAssoc s.cache k.toStr v)).Nodup :=
      nodup_akeys_setAssoc _ _ _ hwf3
    have hmem : (k.toStr, v) ∈ setAssoc s.cache k.toStr v := mem_setAssoc_self _ _ _
    rw [MmapDict.setitem_eq s k v hro]
    rw [if_pos htrig]
    rw [MmapDict.flush_eq_raw ({ s with cache := setAssoc s.cache k.toStr v } : MmapDict)
      hro hcl false]
    constructor
    · exact MmapDict.flushRaw_cache _ false hro hcl
    · obtain ⟨off, _, _, hidx, _⟩ := MmapDict.flushRaw_persists
        ({ s with cache := setAssoc s.cache k.toStr v } : MmapDict) false k.toStr v
        hro hcl hnd1 hwf1 hwf2 hmem
      exact ⟨off, hidx⟩
  · intro s k v hro hlt
    rw [SQLiteDict.sqlSetitem_eq s k v hro]
    rw [if_neg (by omega)]
  · intro s k v rows hro hcl hrows hndc hfresh htrig
    rw [sql_setitem_trig s k v rows hro hcl hrows hndc hfresh htrig]
    refine ⟨rfl, SQLiteDict.clearCurrent_currentCache _, ?_⟩
    have haf : alookup ((s.withSet k v).afterFlush rows).tables
        ((s.withSet k v).afterFlush rows).currentTable
        = some (rows ++ (setAssoc s.currentCache k v).map
            (fun p => (p.1, marshalDumps p.2))) := by
      have h := SQLiteDict.afterFlush_rows (s.withSet k v) rows
      rwa [SQLiteDict.withSet_currentCache] at h
    show alookup ((alookup ((s.withSet k v).afterFlush rows).clearCurrent.tables
        ((s.withSet k v).afterFlush rows).clearCurrent.currentTable).getD []) k
      = some (marshalDumps v)
    rw [show ((s.withSet k v).afterFlush rows).clearCurrent.tables
        = ((s.withSet k v).afterFlush rows).tables from rfl]
    rw [show ((s.withSet k v).afterFlush rows).clearCurrent.currentTable
        = ((s.withSet k v).afterFlush rows).currentTable from rfl]
    rw [haf]
    simp only [Option.getD_some]
    have hknr : k ∉ akeys rows := by
      rw [← alookup_eq_none_iff]
      exact hfresh k (List.mem_map.mpr ⟨(k, v), mem_setAssoc_self _ _ _, rfl⟩)
    rw [alookup_append_of_not_mem _ _ _ hknr, alookup_map_snd, alookup_setAssoc_self]
    rfl

/-- Witness for C7 at concrete inputs: a below-capacity set on each backend
only grows the cache; a set on a capacity-0 mapped store and a capacity-1
relational store flushes and persists the key. -/
theorem capacity_triggered_flush_witness :
    ((mmapFresh 250).setitem (.str "a") (.int 1)
      = { mmapFresh 250 with cache := setAssoc (mmapFresh 250).cache "a" (.int 1) }) ∧
    (((mmapFresh 0).setitem (.str "a") (.int 1)).cache = [] ∧
      ∃ off, alookup ((mmapFresh 0).setitem (.str "a") (.int 1)).indices "a"
        = some (off, (marshalDumps (.int 1)).length)) ∧
    (sqlFresh.setitem "k" (.int 7) = (sqlFresh.withSet "k" (.int 7), Option.none)) ∧
    (((sqlCap1.setitem "k" (.int 7)).2 = Option.none ∧
      (sqlCap1.setitem "k" (.int 7)).1.currentCache = [] ∧
      alookup ((alookup (sqlCap1.setitem "k" (.int 7)).1.tables
          (sqlCap1.setitem "k" (.int 7)).1.currentTable).getD []) "k"
        = some (marshalDumps (.int 7)))) :=
  ⟨capacity_triggered_flush.1 (mmapFresh 250) (.str "a") (.int 1) rfl (by decide),
   capacity_triggered_flush.2.1 (mmapFresh 0) (.str "a") (.int 1) rfl rfl
     ⟨by decide, by decide, by decide⟩ (by decide),
   capacity_triggered_flush.2.2.1 sqlFresh "k" (.int 7) rfl (by decide),
   capacity_triggered_flush.2.2.2 sqlCap1 "k" (.int 7) [] rfl rfl (by decide)
     (by decide) (by decide) (by decide)⟩

/-- C10 (implicit): `MmapDict` coerces keys to strings on set but not on get
or containment.  For a non-string key `k` (an `int`), `set(k, v)` stores the
value under `str(k)` in the write-cache; `get(k)` with the original key misses
the write-cache and raises `KeyError` both before and after a flush;
`k in store` is false after the flush; only `get(str(k))` retrieves `v`. -/
theorem mmap_key_coercion :
    ∀ (s : MmapDict) (i : Int) (v : PyVal),
      s.wf → s.readOnly = false → s.isClosed = false →
      (setAssoc s.cache (PyKey.int i).toStr v).length ≤ s.cacheSize →
      alookup (s.setitem (.int i) v).cache (PyKey.int i).toStr = some v ∧
      (s.setitem (.int i) v).getitem (.int i)
        = .error (.keyError (PyKey.int i).toStr) ∧
      ((s.setitem (.int i) v).flush false).getitem (.int i)
        = .error (.keyError (PyKey.int i).toStr) ∧
      ((s.setitem (.int i) v).flush false).contains (.int i) = false ∧
      ((s.setitem (.int i) v).flush false).getitem (.str (PyKey.int i).toStr)
        = .ok v := by
  intro s i v hwf hro hcl hnotrig
  obtain ⟨hwf1, hwf2, hwf3⟩ := hwf
  have hnd1 : (akeys (setAssoc s.cache (PyKey.int i).toStr v)).Nodup :=
    nodup_akeys_setAssoc _ _ _ hwf3
  have hmem : ((PyKey.int i).toStr, v) ∈ setAssoc s.cache (PyKey.int i).toStr v :=
    mem_setAssoc_self _ _ _
  have hset : s.setitem (.int i) v
      = { s with cache := setAssoc s.cache (PyKey.int i).toStr v } := by
    rw [MmapDict.setitem_eq s (.int i) v hro]
    rw [if_neg (by omega)]
  refine ⟨?_, ?_, ?_, ?_, ?_⟩
  · rw [hset]
    exact alookup_setAssoc_self _ _ _
  · rfl
  · rfl
  · rfl
  · rw [hset]
    rw [MmapDict.flush_eq_raw
      ({ s with cache := setAssoc s.cache (PyKey.int i).toStr v } : MmapDict)
      hro hcl false]
    obtain ⟨off, _, _, hidx, hread⟩ := MmapDict.flushRaw_persists
      ({ s with cache := setAssoc s.cache (PyKey.int i).toStr v } : MmapDict) false
      (PyKey.int i).toStr v hro hcl hnd1 hwf1 hwf2 hmem
    exact MmapDict.getitem_of_persisted _ _ v off
      (MmapDict.flushRaw_cache _ false hro hcl) hidx hread

/-- Witness for C10 at a concrete input: key `1` on a fresh mapped store. -/
theorem mmap_key_coercion_witness :
    alookup ((mmapFresh 250).setitem (.int 1) (.int 7)).cache
        (PyKey.int 1).toStr = some (.int 7) ∧
    ((mmapFresh 250).setitem (.int 1) (.int 7)).getitem (.int 1)
      = .error (.keyError (PyKey.int 1).toStr) ∧
    (((mmapFresh 250).setitem (.int 1) (.int 7)).flush false).getitem (.int 1)
      = .error (.keyError (PyKey.int 1).toStr) ∧
    (((mmapFresh 250).setitem (.int 1) (.int 7)).flush false).contains (.int 1)
      = false ∧
    (((mmapFresh 250).setitem (.int 1) (.int 7)).flush false).getitem
        (.str (PyKey.int 1).toStr)
      = .ok (.int 7) :=
  mmap_key_coercion (mmapFresh 250) 1 (.int 7)
    ⟨by decide, by decide, by decide⟩ rfl rfl (by decide)

/-- C3 (amended): after every `MmapDict` flush that re-serialized the index —
that is, every `_flush` call in which `save_all` was true **or** the
cumulative estimated index growth accumulated by the flush loop exceeded
`MAX_INDICES_SIZE` (the exact condition of `utils.py` lines 300-306) —
reading the two header fields and then `index_blob_length` bytes at
`data_end_offset` deserializes exactly to the in-memory
key-to-(offset, length) index. -/
theorem mmap_index_invariant_amended :
    ∀ (s : MmapDict) (b : Bool), s.readOnly = false → s.isClosed = false →
      mmapHeaderSize ≤ s.file.maxPos →
      s.file.maxPos - mmapHeaderSize ≤ s.file.payload.length →
      (b = true ∨ mmapMaxIndicesBytes <
        (flushLoop s.cache s.indices s.file.maxPos s.increased).increased) →
      readPersistedIndex (s.flush b).file = some ((s.flush b).indices) := by
  intro s b hro hcl hwf1 hwf2 hcond
  have hflush : s.flush b = { s with
      file := ⟨(flushLoop s.cache s.indices s.file.maxPos s.increased).maxPos,
        (pickleIndices (flushLoop s.cache s.indices s.file.maxPos s.increased).indices).length,
        writeAt s.file.payload (s.file.maxPos - mmapHeaderSize)
          ((flushLoop s.cache s.indices s.file.maxPos s.increased).buffer ++
            pickleIndices (flushLoop s.cache s.indices s.file.maxPos s.increased).indices)⟩,
      indices := (flushLoop s.cache s.indices s.file.maxPos s.increased).indices,
      cache := [], increased := 0 } := by
    rw [MmapDict.flush_eq_raw s hro hcl b]
    unfold MmapDict.flushRaw
    rw [hro, hcl]
    simp only [Bool.or_self, Bool.false_eq_true, if_false]
    rw [if_pos hcond]
  rw [hflush]
  unfold readPersistedIndex
  dsimp only
  have hmp := flushLoop_maxPos s.cache s.indices s.file.maxPos s.increased
  rw [show (flushLoop s.cache s.indices s.file.maxPos s.increased).maxPos - mmapHeaderSize
      = (s.file.maxPos - mmapHeaderSize) +
        (flushLoop s.cache s.indices s.file.maxPos s.increased).buffer.length from by omega]
  rw [readAt_writeAt_at s.file.payload
    ((flushLoop s.cache s.indices s.file.maxPos s.increased).buffer ++
      pickleIndices (flushLoop s.cache s.indices s.file.maxPos s.increased).indices)
    (s.file.maxPos - mmapHeaderSize)
    (flushLoop s.cache s.indices s.file.maxPos s.increased).buffer.length
    (pickleIndices (flushLoop s.cache s.indices s.file.maxPos s.increased).indices).length
    (by simp)]
  rw [List.drop_left, List.take_length]
  have hu := unpickleIndices_pickle
    (flushLoop s.cache s.indices s.file.maxPos s.increased).indices []
  rw [List.append_nil] at hu
  exact hu

/-- Witness for the amended C3, covering both re-serialization triggers: a
`flush(save_all=True)` of a one-entry fresh store, and a
`flush(save_all=False)` of a store whose accumulated estimated index growth
already stands just above the 25-MiB threshold (so the loop pushes it over and
the index is re-dumped); in both cases the header locates a blob deserializing
to the in-memory index. -/
theorem mmap_index_invariant_amended_witness :
    readPersistedIndex (((mmapFresh 250).setitem (.str "a") (.int 1)).flush true).file
      = some ((((mmapFresh 250).setitem (.str "a") (.int 1)).flush true).indices) ∧
    readPersistedIndex (mmapNearThreshold.flush false).file
      = some ((mmapNearThreshold.flush false).indices) :=
  ⟨mmap_index_invariant_amended ((mmapFresh 250).setitem (.str "a") (.int 1)) true
      rfl rfl (by decide) (by decide) (Or.inl rfl),
   mmap_index_invariant_amended mmapNearThreshold false
      rfl rfl (by decide) (by decide) (Or.inr (by decide))⟩

/-- Counterexample for C3 as stated: after a completed flush that appended a
value record but did not re-serialize the index (`save_index` false, growth
below the threshold), `data_end_offset` has advanced past the record while
`index_blob_length` still reads `0`, so the designated region deserializes to
nothing — even though the in-memory index now has an entry. -/
theorem mmap_index_invariant_counterexample :
    readPersistedIndex (((mmapFresh 250).setitem (.str "a") (.int 1)).flush false).file
      = Option.none ∧
    (((mmapFresh 250).setitem (.str "a") (.int 1)).flush false).indices
      = [("a", 104, 2)] := by
  constructor
  · rfl
  · rfl

/-- C6: the multi-key form of `SQLiteDict.__getitem__` issues one
`IN (...)` query against the current table; when the number of returned rows
differs from the number of requested keys — in particular whenever a requested
key is absent — it raises `KeyError` naming the query's key list and returns
no partial result; otherwise the decoded values are returned (one per
requested key). -/
theorem sqlite_multi_key_fetch :
    ∀ (s : SQLiteDict) (ks : List String) (rows : List (String × List Tok)),
      alookup s.tables s.currentTable = some rows →
      (akeys rows).Nodup →
      ((∃ k ∈ ks, alookup rows k = Option.none) →
        s.getitemMulti ks = .error (.keyError (sqlMultiMsg ks))) ∧
      (ks.Nodup → (∀ k ∈ ks, ∃ v, alookup rows k = some (marshalDumps v)) →
        ∃ vs, s.getitemMulti ks = .ok vs ∧ vs.length = ks.length) := by
  intro s ks rows hrows hnd
  have hgm : s.getitemMulti ks
      = (if (rows.filter (fun r => decide (r.1 ∈ ks))).length ≠ ks.length
         then .error (.keyError (sqlMultiMsg ks))
         else
           match decodeBlobs
               ((rows.filter (fun r => decide (r.1 ∈ ks))).map Prod.snd) with
           | some vs => .ok vs
           | Option.none => .error (.valueError "marshal.loads")) := by
    unfold SQLiteDict.getitemMulti
    rw [hrows]
  set res := rows.filter (fun r => decide (r.1 ∈ ks)) with hres
  have hndr : (akeys res).Nodup := by
    apply List.Nodup.sublist _ hnd
    exact List.Sublist.map Prod.fst (List.filter_sublist rows)
  have hmemr : ∀ key, key ∈ akeys res ↔ (key ∈ akeys rows ∧ key ∈ ks) := by
    intro key
    constructor
    · intro h
      obtain ⟨x, hx⟩ := (mem_akeys_iff _ _).mp h
      rw [hres] at hx
      obtain ⟨hin, hp⟩ := List.mem_filter.mp hx
      exact ⟨(mem_akeys_iff _ _).mpr ⟨x, hin⟩, by simpa using hp⟩
    · rintro ⟨h1, h2⟩
      obtain ⟨x, hx⟩ := (mem_akeys_iff _ _).mp h1
      refine (mem_akeys_iff _ _).mpr ⟨x, ?_⟩
      rw [hres]
      exact List.mem_filter.mpr ⟨hx, by simpa using h2⟩
  have hlenak : res.length = (akeys res).length := by simp [akeys]
  constructor
  · rintro ⟨k0, hk0mem, hk0none⟩
    have hk0nr : k0 ∉ akeys rows := (alookup_eq_none_iff rows k0).mp hk0none
    have hcard : res.length < ks.length := by
      have h2 := List.toFinset_card_of_nodup hndr
      have hsub : (akeys res).toFinset ⊆ ks.toFinset.erase k0 := by
        intro a ha
        rw [List.mem_toFinset] at ha
        obtain ⟨har, haks⟩ := (hmemr a).mp ha
        rw [Finset.mem_erase, List.mem_toFinset]
        exact ⟨fun haa => hk0nr (haa ▸ har), haks⟩
      have h3 := Finset.card_le_card hsub
      have h4 : (ks.toFinset.erase k0).card = ks.toFinset.card - 1 :=
        Finset.card_erase_of_mem (List.mem_toFinset.mpr hk0mem)
      have h5 : ks.toFinset.card ≤ ks.length := ks.toFinset_card_le
      have h6 : 1 ≤ ks.toFinset.card :=
        Finset.card_pos.mpr ⟨k0, List.mem_toFinset.mpr hk0mem⟩
      omega
    rw [hgm, if_pos (by omega)]
  · intro hksnd hall
    have hlen : res.length = ks.length := by
      have h2 := List.toFinset_card_of_nodup hndr
      have h3 := List.toFinset_card_of_nodup hksnd
      have hfs : (akeys res).toFinset = ks.toFinset := by
        apply Finset.ext
        intro a
        rw [List.mem_toFinset, List.mem_toFinset, hmemr a]
        constructor
        · exact fun h => h.2
        · intro ha
          obtain ⟨v, hv⟩ := hall a ha
          refine ⟨?_, ha⟩
          rw [← alookup_isSome_iff]
          rw [hv]
          rfl
      have hc : (akeys res).toFinset.card = ks.toFinset.card := by rw [hfs]
      omega
    have hblobs : ∀ b ∈ res.map Prod.snd, ∃ v, marshalLoads b = some v := by
      intro b hb
      obtain ⟨r, hr, hrb⟩ := List.mem_map.mp hb
      rw [hres] at hr
      obtain ⟨hrin, hrp⟩ := List.mem_filter.mp hr
      obtain ⟨v, hv⟩ := hall r.1 (by simpa using hrp)
      have hlk : alookup rows r.1 = some r.2 :=
        alookup_of_mem_nodup rows r.1 r.2 hnd hrin
      rw [hlk] at hv
      refine ⟨v, ?_⟩
      rw [← hrb, Option.some.inj hv, marshalLoads_dumps]
    obtain ⟨vs, hvs, hvslen⟩ := decodeBlobs_total (res.map Prod.snd) hblobs
    rw [hgm, if_neg (by omega)]
    rw [hvs]
    refine ⟨vs, rfl, ?_⟩
    rw [hvslen]
    simp [hlen]

/-- Witness for C6 on a concrete table holding rows `k1` and `k3`: requesting
`[k1, k2, k3]` raises the `KeyError` naming the key list; requesting
`[k1, k3]` returns both decoded values. -/
theorem sqlite_multi_key_fetch_witness :
    sqlTwoRows.getitemMulti ["k1", "k2", "k3"]
      = .error (.keyError (sqlMultiMsg ["k1", "k2", "k3"])) ∧
    ∃ vs, sqlTwoRows.getitemMulti ["k1", "k3"] = .ok vs ∧
      vs.length = (["k1", "k3"] : List String).length := by
  constructor
  · exact (sqlite_multi_key_fetch sqlTwoRows ["k1", "k2", "k3"]
      [("k1", marshalDumps (.int 1)), ("k3", marshalDumps (.int 3))]
      (by decide) (by decide)).1 ⟨"k2", by decide, by decide⟩
  · refine (sqlite_multi_key_fetch sqlTwoRows ["k1", "k3"]
      [("k1", marshalDumps (.int 1)), ("k3", marshalDumps (.int 3))]
      (by decide) (by decide)).2 (by decide) ?_
    intro k hk
    rcases (by simpa using hk : k = "k1" ∨ k = "k3") with h | h
    · subst h
      exact ⟨.int 1, by decide⟩
    · subst h
      exact ⟨.int 3, by decide⟩

/-- C2 (amended): a second constructor call for an already-registered
`(backend, path)` returns the **same registered instance** (its `read_only`
and `cache_size` are unchanged, and the second call's differing `read_only` /
`cache_size` arguments are ignored), but Python still runs `__init__` on that
instance: with `override` set the existing file is deleted and the store
recreated empty, and `_restore_dict` re-executes either way, discarding every
pending write-cache entry and re-reading state from disk (for `SQLiteDict`
also resetting all per-table caches and the current table to the default). -/
theorem singleton_reopen_amended :
    (∀ (inst : MmapDict) (disk : MmapFile) (ro : Bool) (cs : Nat) (r : MmapOpenResult),
      mmapOpenCall (some inst) (some disk) ro cs false = .ok r →
      r.sameInstance = true ∧ r.handle.readOnly = inst.readOnly ∧
      r.handle.cacheSize = inst.cacheSize ∧ r.handle.isClosed = inst.isClosed ∧
      r.handle.cache = [] ∧ r.handle.file = disk ∧ r.disk = some disk) ∧
    (∀ (inst : MmapDict) (disk : MmapFile) (ro : Bool) (cs : Nat),
      inst.readOnly = false →
      mmapOpenCall (some inst) (some disk) ro cs true
        = .ok { handle :=
                  { file := ⟨mmapHeaderSize, 0, []⟩, indices := [], cache := [],
                    increased := 0, readOnly := inst.readOnly,
                    cacheSize := inst.cacheSize, isClosed := inst.isClosed },
                sameInstance := true, disk := some ⟨mmapHeaderSize, 0, []⟩ }) ∧
    (∀ (inst : SQLiteDict) (disk : List (String × List (String × List Tok)))
       (ro : Bool) (cs : Nat),
      (sqlOpenCall (some inst) (some disk) ro cs false).sameInstance = true ∧
      (sqlOpenCall (some inst) (some disk) ro cs false).handle.readOnly
        = inst.readOnly ∧
      (sqlOpenCall (some inst) (some disk) ro cs false).handle.cacheSize
        = inst.cacheSize ∧
      (sqlOpenCall (some inst) (some disk) ro cs false).handle.caches = [] ∧
      (sqlOpenCall (some inst) (some disk) ro cs false).handle.currentTable
        = sqlDefaultTable) := by
  refine ⟨?_, ?_, ?_⟩
  · intro inst disk ro cs r h
    unfold mmapOpenCall at h
    dsimp only at h
    rw [if_neg (by simp)] at h
    unfold mmapRestore at h
    dsimp only at h
    cases hunp : unpickleIndices
        (readAt disk.payload (disk.maxPos - mmapHeaderSize) disk.dictSize) with
    | none =>
        rw [hunp] at h
        simp at h
    | some idx =>
        rw [hunp] at h
        simp only [Except.ok.injEq] at h
        subst h
        exact ⟨rfl, rfl, rfl, rfl, rfl, rfl, rfl⟩
  · intro inst disk ro cs hro
    unfold mmapOpenCall mmapRestore
    dsimp only
    rw [if_pos rfl]
    rw [hro]
    simp
  · intro inst disk ro cs
    refine ⟨rfl, ?_, ?_, ?_, ?_⟩
    all_goals {
      unfold sqlOpenCall SQLiteDict.setTable
      dsimp only
      simp only [Bool.false_eq_true, if_false, Option.getD_some]
      split <;> rfl
    }

/-- Witness for the amended C2: reopening the path of `c2Inst` (which has a
pending `"a"` in its write-cache) with differing arguments returns the same
instance with `read_only`/`cache_size` unchanged but the cache reset; an
`override=True` reopen replaces the file with a fresh empty store; a second
`SQLiteDict` open likewise keeps the instance but resets its caches. -/
theorem singleton_reopen_amended_witness :
    (({ handle := { c2Inst with cache := [], increased := 0 }, sameInstance := true,
        disk := some c2Disk } : MmapOpenResult).sameInstance = true ∧
     ({ handle := { c2Inst with cache := [], increased := 0 }, sameInstance := true,
        disk := some c2Disk } : MmapOpenResult).handle.readOnly = c2Inst.readOnly ∧
     ({ handle := { c2Inst with cache := [], increased := 0 }, sameInstance := true,
        disk := some c2Disk } : MmapOpenResult).handle.cacheSize = c2Inst.cacheSize ∧
     ({ handle := { c2Inst with cache := [], increased := 0 }, sameInstance := true,
        disk := some c2Disk } : MmapOpenResult).handle.isClosed = c2Inst.isClosed ∧
     ({ handle := { c2Inst with cache := [], increased := 0 }, sameInstance := true,
        disk := some c2Disk } : MmapOpenResult).handle.cache = [] ∧
     ({ handle := { c2Inst with cache := [], increased := 0 }, sameInstance := true,
        disk := some c2Disk } : MmapOpenResult).handle.file = c2Disk ∧
     ({ handle := { c2Inst with cache := [], increased := 0 }, sameInstance := true,
        disk := some c2Disk } : MmapOpenResult).disk = some c2Disk) ∧
    (mmapOpenCall (some c2Inst) (some c2Disk) true 999 true
      = .ok { handle :=
                { file := ⟨mmapHeaderSize, 0, []⟩, indices := [], cache := [],
                  increased := 0, readOnly := c2Inst.readOnly,
                  cacheSize := c2Inst.cacheSize, isClosed := c2Inst.isClosed },
              sameInstance := true, disk := some ⟨mmapHeaderSize, 0, []⟩ }) ∧
    ((sqlOpenCall (some roSql) (some sqlOneRow.tables) false 999 false).sameInstance
        = true ∧
     (sqlOpenCall (some roSql) (some sqlOneRow.tables) false 999 false).handle.readOnly
        = roSql.readOnly ∧
     (sqlOpenCall (some roSql) (some sqlOneRow.tables) false 999 false).handle.cacheSize
        = roSql.cacheSize ∧
     (sqlOpenCall (some roSql) (some sqlOneRow.tables) false 999 false).handle.caches
        = [] ∧
     (sqlOpenCall (some roSql) (some sqlOneRow.tables) false 999 false).handle.currentTable
        = sqlDefaultTable) :=
  ⟨singleton_reopen_amended.1 c2Inst c2Disk true 999
      { handle := { c2Inst with cache := [], increased := 0 }, sameInstance := true,
        disk := some c2Disk } rfl,
   singleton_reopen_amended.2.1 c2Inst c2Disk true 999 rfl,
   singleton_reopen_amended.2.2 roSql sqlOneRow.tables false 999⟩

/-- Counterexample for C2 as stated: the claim says a second open request
returns the original handle **unchanged** with all differing constructor
arguments ignored; on the concrete registered instance `c2Inst` (pending
write-cache entry `"a"`), a second open returns the same instance but with its
write-cache reset — pending state is lost, so the handle is not unchanged. -/
theorem singleton_reopen_counterexample :
    mmapOpenCall (some c2Inst) (some c2Disk) true 999 false
      = .ok { handle := { c2Inst with cache := [], increased := 0 },
              sameInstance := true, disk := some c2Disk } ∧
    ({ c2Inst with cache := [], increased := 0 } : MmapDict) ≠ c2Inst := by
  constructor
  · rfl
  · intro h
    have h2 := congrArg MmapDict.cache h
    simp [c2Inst] at h2

end OdinFuel
